import Mathlib

/-!
# Verification of the `disk_analyzer` package (scanner / rules / cleaner)

A shallow embedding, in Lean 4, of the parts of
`src/backend/disk_analyzer/{rules,scanner,cleaner}.py` that the
specification's claims are about, together with theorems settling those
claims.

Modelling conventions:
* Windows paths are plain `String`s, already absolute and normalized
  (`os.path.abspath` is the identity on such paths, so it is not modelled
  separately).  The path separator is a single backslash.
* Python `str.startswith` is string-prefix on the character list;
  Python's `x in s` substring test is list-infix on the character list.
* Timestamps are integers in milliseconds; `timedelta(days=d)` is
  `d * 86400000` ms.  (Milliseconds suffice to express the spec's
  "6.999 days" boundary exactly.)
* The filesystem is an association list from path to entry kind
  (file or directory); operations that can raise (`os.remove`,
  `shutil.rmtree`, backup copies) are governed by Boolean oracles that
  say, per path, whether the operation succeeds, and a failed operation
  leaves the filesystem unchanged.
-/

namespace DiskAnalyzer

/-! ## String helpers (Python `str` operations over Windows paths) -/

/-- Path separator used by `os.path.join`/`os.walk` on Windows. -/
def sep : String := "\\"

/-- `os.path.join a b` for a relative right operand on Windows:
joins with a backslash, except that an empty left operand yields `b`
(as `ntpath.join('', b) = b`). -/
def joinPath (a b : String) : String :=
  if a = "" then b else a ++ sep ++ b

/-- Python `pre.startswith... `: `path.startswith(pre)`. -/
def strStartsWith (path pre : String) : Bool :=
  pre.data.isPrefixOf path.data

/-- Auxiliary for the substring test: does `pat` occur as an infix of `l`? -/
def infixAt (pat : List Char) : List Char → Bool
  | [] => pat.isPrefixOf ([] : List Char)
  | c :: cs => pat.isPrefixOf (c :: cs) || infixAt pat cs

/-- Python's substring containment `pat in s`. -/
def strContains (s pat : String) : Bool :=
  infixAt pat.data s.data

/-- Index (0-based) of the last occurrence of `c` in `l`, as Python
`str.rfind` (`none` for Python's `-1`). -/
def rfindIdx (c : Char) (l : List Char) : Option Nat :=
  match l with
  | [] => none
  | x :: xs =>
    match rfindIdx c xs with
    | some i => some (i + 1)
    | none => if x = c then some 0 else none

/-- Python `-1`-convention comparison helper: `rfind` result as `Int`. -/
def rfindInt (c : Char) (l : List Char) : Int :=
  match rfindIdx c l with
  | some i => (i : Int)
  | none => -1

/-- `ntpath.basename p`: everything after the last `\` or `/`. -/
def basename (p : String) : String :=
  let l := p.data
  let sepIdx := max (rfindInt '\\' l) (rfindInt '/' l)
  ⟨l.drop (sepIdx + 1).toNat⟩

/-- `genericpath._splitext` with `sep='\\'`, `altsep='/'`, `extsep='.'`
(i.e. `ntpath.splitext`): splits off the extension at the last dot of the
final path component, unless that component consists only of leading dots
up to there. -/
def splitext (p : String) : String × String :=
  let l := p.data
  let sepIndex : Int := max (rfindInt '\\' l) (rfindInt '/' l)
  let dotIndex : Int := rfindInt '.' l
  if dotIndex > sepIndex then
    -- skip all leading dots of the basename; if everything before the
    -- last dot is dots, there is no extension
    let base := (l.drop (sepIndex + 1).toNat).take (dotIndex - sepIndex - 1).toNat
    if base.all (· = '.') then (p, "")
    else (⟨l.take dotIndex.toNat⟩, ⟨l.drop dotIndex.toNat⟩)
  else (p, "")

/-! ## `rules.py` -/

/-- `rules.CleanupCategory` (the `get_paths` callable is omitted: path
discovery queries the live host environment and no claim depends on it). -/
structure CleanupCategory where
  name : String
  display_name : String
  description : String
  risk_level : String
  is_safe_auto : Bool
deriving Repr, DecidableEq

/-- `rules.CLEANUP_CATEGORIES`: the fixed registry, as an ordered
association list of name to category. -/
def CLEANUP_CATEGORIES : List (String × CleanupCategory) :=
  [ ("temp_files",
     { name := "temp_files", display_name := "Temporary Files",
       description := "Windows temporary files and folders that are safe to delete",
       risk_level := "low", is_safe_auto := true }),
    ("browser_cache",
     { name := "browser_cache", display_name := "Browser Cache",
       description := "Cached files from web browsers (Chrome, Edge, Firefox)",
       risk_level := "low", is_safe_auto := true }),
    ("recycle_bin",
     { name := "recycle_bin", display_name := "Recycle Bin",
       description := "Files in the Recycle Bin",
       risk_level := "low", is_safe_auto := false }),
    ("windows_update",
     { name := "windows_update", display_name := "Windows Update Cache",
       description := "Old Windows Update files",
       risk_level := "low", is_safe_auto := true }),
    ("installers",
     { name := "installers", display_name := "Old Installers",
       description := "Installation files (.msi, .exe) in Downloads folder older than 30 days",
       risk_level := "medium", is_safe_auto := false }),
    ("thumbnails",
     { name := "thumbnails", display_name := "Thumbnail Cache",
       description := "Windows thumbnail cache files",
       risk_level := "low", is_safe_auto := true }),
    ("dev_cache",
     { name := "dev_cache", display_name := "Development Cache",
       description := "node_modules, __pycache__, .cache folders from development projects",
       risk_level := "high", is_safe_auto := false }) ]

/-- `rules.PROTECTED_DIRECTORIES`, parameterized by the `USERPROFILE`
environment value used when the module is loaded. -/
def PROTECTED_DIRECTORIES (userProfile : String) : List String :=
  [ "C:\\Windows\\System32",
    "C:\\Windows\\SysWOW64",
    "C:\\Program Files",
    "C:\\Program Files (x86)",
    "C:\\ProgramData",
    joinPath userProfile "Documents",
    joinPath userProfile "Pictures",
    joinPath userProfile "Videos",
    joinPath userProfile "Music",
    joinPath userProfile "Desktop" ]

/-- The loop body of `rules.is_path_protected`: iterate over the protected
directories; on a prefix match, `continue` to the next directory when the
path contains `Temp` or `Cache` as a substring, else return `True`; return
`False` when the list is exhausted. -/
def protectedLoop (path : String) : List String → Bool
  | [] => false
  | d :: rest =>
    if strStartsWith path d then
      if strContains path "Temp" || strContains path "Cache" then
        protectedLoop path rest
      else
        true
    else
      protectedLoop path rest

/-- `rules.is_path_protected` (the input path is taken to be already
absolute, so the `os.path.abspath` call is the identity). -/
def is_path_protected (userProfile path : String) : Bool :=
  protectedLoop path (PROTECTED_DIRECTORIES userProfile)

/-- `rules.is_file_old_enough`.  The file's access time is passed in as
`atimeMs` (`none` models `os.path.getatime` raising, which the function's
`except` turns into `False`); `nowMs` is `datetime.now()`; the source
compares `file_date < now - timedelta(days=days)` strictly. -/
def is_file_old_enough (atimeMs : Option Int) (nowMs : Int) (days : Int) : Bool :=
  match atimeMs with
  | none => false
  | some t => t < nowMs - days * 86400000

/-- `rules.get_category_by_name`: `ValueError` is modelled as
`Except.error` carrying the exception's message. -/
def get_category_by_name (category_name : String) : Except String CleanupCategory :=
  match CLEANUP_CATEGORIES.find? (fun kv => kv.1 == category_name) with
  | none => .error ("Unknown cleanup category: " ++ category_name)
  | some kv => .ok kv.2

/-! ## A filesystem model

The disk is an association list from absolute path to entry kind.  All
mutating operations of the cleaner either append entries (backup copies,
`makedirs`) or filter entries out (`os.remove`, `shutil.rmtree`); existence
and kind lookups use the first matching entry. -/

/-- Kind of filesystem object at a path. -/
inductive EntryKind
  | file
  | dir
deriving Repr, DecidableEq

instance : BEq EntryKind := ⟨fun a b => decide (a = b)⟩

/-- The filesystem state. -/
structure FS where
  entries : List (String × EntryKind)
deriving Repr, DecidableEq

/-- `os.path.exists p`. -/
def FS.existsPath (fs : FS) (p : String) : Bool :=
  fs.entries.any (fun e => e.1 == p)

/-- Kind of the entry at `p`, if any (first match). -/
def FS.lookupKind (fs : FS) (p : String) : Option EntryKind :=
  (fs.entries.find? (fun e => e.1 == p)).map (fun e => e.2)

/-- `os.path.isfile p`. -/
def FS.isFile (fs : FS) (p : String) : Bool :=
  fs.lookupKind p == some .file

/-- `os.path.isdir p`. -/
def FS.isDir (fs : FS) (p : String) : Bool :=
  fs.lookupKind p == some .dir

/-- Is `p` strictly below directory `root` (path-prefix with separator)? -/
def isUnder (root p : String) : Bool :=
  strStartsWith p (root ++ sep)

/-- `os.remove p`: drop every entry at exactly `p`. -/
def FS.removePath (fs : FS) (p : String) : FS :=
  ⟨fs.entries.filter (fun e => !(e.1 == p))⟩

/-- `shutil.rmtree root`: drop `root` and everything below it. -/
def FS.removeTree (fs : FS) (root : String) : FS :=
  ⟨fs.entries.filter (fun e => !(e.1 == root || isUnder root e.1))⟩

/-- Append a new entry (keeps earlier entries' lookups unchanged). -/
def FS.addEntry (fs : FS) (p : String) (k : EntryKind) : FS :=
  ⟨fs.entries ++ [(p, k)]⟩

/-- `os.makedirs p (exist_ok := True)`: record the directory if absent.
(Intermediate components are not tracked; no claim depends on them.) -/
def FS.makeDir (fs : FS) (p : String) : FS :=
  if fs.existsPath p then fs else fs.addEntry p .dir

/-- `shutil.copytree src dest`: add `dest` as a directory together with a
copy, under `dest`, of every entry strictly below `src`. -/
def FS.copyTree (fs : FS) (src dest : String) : FS :=
  ⟨fs.entries ++ (dest, EntryKind.dir) ::
    fs.entries.filterMap (fun e =>
      if isUnder src e.1 then
        some (dest ++ (⟨e.1.data.drop src.data.length⟩ : String), e.2)
      else none)⟩

/-! ## Decimal rendering of the collision counter

Python renders `counter` in `f"{name}_{counter}{ext}"` in decimal; the
function below is that decimal rendering. -/

/-- Decimal digits of `n`, most significant first, prepended to `acc`;
`fuel` bounds the number of digits produced. -/
def natToDecimalCore : Nat → Nat → List Char → List Char
  | 0, _, acc => acc
  | fuel + 1, n, acc =>
    if n < 10 then Nat.digitChar n :: acc
    else natToDecimalCore fuel (n / 10) (Nat.digitChar (n % 10) :: acc)

/-- Python `str(n)` for a natural number (`n + 1` digits of fuel always
suffice). -/
def natRepr (n : Nat) : String :=
  ⟨natToDecimalCore (n + 1) n []⟩

/-! ## `cleaner.py` -/

/-- One element of a `files_by_category` list: the request's file dict.
`size` is `none` when the dict has no `size` key (`file_info.get('size', 0)`
then contributes `0`). -/
structure FileInfo where
  path : String
  size : Option Nat
deriving Repr, DecidableEq

/-- Environment oracles for operations that can raise: whether the backup
copy of an item succeeds, whether deleting a path succeeds, and the text of
the exception raised when it does not.  A failed operation leaves the
filesystem unchanged. -/
structure Oracles where
  backupOk : String → Bool
  deleteOk : String → Bool
  deleteErr : String → String

/-- Mutable state of a `DiskCleaner` during `cleanup_categories`. -/
structure CleanerState where
  files_deleted : Nat
  size_freed : Nat
  errors : List String
  fs : FS
deriving Repr, DecidableEq

/-- What happened to one item of a category's file list. -/
inductive Outcome
  | skipped
  | deleted
  | failed
deriving Repr, DecidableEq

/-- The candidate destination produced at collision counter `k`:
`f"{name}_{counter}{ext}"` over `splitext` of the original destination. -/
def candidate (origDest : String) (k : Nat) : String :=
  let ne := splitext origDest
  ne.1 ++ "_" ++ natRepr k ++ ne.2

/-- The `while os.path.exists(backup_dest)` collision loop of
`cleaner.DiskCleaner._backup_item`, with explicit fuel (the loop always
terminates because the finitely many existing paths cannot contain every
candidate). -/
def resolveCollision (fs : FS) (origDest : String) : Nat → Nat → String → String
  | 0, _, dest => dest
  | fuel + 1, counter, dest =>
    if fs.existsPath dest then
      resolveCollision fs origDest fuel (counter + 1) (candidate origDest counter)
    else dest

/-- Destination chosen for backing up `itemPath` into the category's backup
directory, after the name-collision loop. -/
def backupDest (fs : FS) (categoryBackup itemPath : String) : String :=
  let origDest := joinPath categoryBackup (basename itemPath)
  resolveCollision fs origDest (fs.entries.length + 1) 1 origDest

/-- `cleaner.DiskCleaner._backup_item`.  The whole body is inside
`try/except`, so a failure (modelled as `backupOk itemPath = false`) is
swallowed and the filesystem is left as it was; on success, the category
backup directory is created, a collision-free destination is chosen, and
the item (file or directory tree) is copied there. -/
def backup_item (backupOk : String → Bool) (backupPath categoryName : String)
    (fs : FS) (itemPath : String) : FS :=
  if !backupOk itemPath then fs
  else
    let categoryBackup := joinPath backupPath categoryName
    let fs1 := fs.makeDir categoryBackup
    let dest := backupDest fs1 categoryBackup itemPath
    if fs1.isFile itemPath then fs1.addEntry dest .file
    else if fs1.isDir itemPath then fs1.copyTree itemPath dest
    else fs1

/-- The message appended to `errors` when deleting `p` raises
(`f"Error cleaning {file_path}: {e}"`). -/
def cleanErrorMsg (env : Oracles) (p : String) : String :=
  "Error cleaning " ++ p ++ ": " ++ env.deleteErr p

/-- The filesystem after the optional backup step of one
`_clean_category` iteration (`if create_backup and self.backup_path:`). -/
def stepFS (env : Oracles) (create_backup : Bool) (backup_path : Option String)
    (category_name : String) (fs : FS) (p : String) : FS :=
  match create_backup, backup_path with
  | true, some bp => backup_item env.backupOk bp category_name fs p
  | _, _ => fs

/-- One iteration of the `for file_info in files` loop of
`cleaner.DiskCleaner._clean_category`, together with the item's outcome:
protected or vanished paths are skipped, a delete that raises appends an
error and changes no counter, and a successful delete removes the path and
bumps both counters. -/
def clean_step (env : Oracles) (userProfile : String) (create_backup : Bool)
    (backup_path : Option String) (category_name : String)
    (st : CleanerState) (e : FileInfo) : CleanerState × Outcome :=
  if is_path_protected userProfile e.path then (st, .skipped)
  else if !st.fs.existsPath e.path then (st, .skipped)
  else
    let fs1 := stepFS env create_backup backup_path category_name st.fs e.path
    if fs1.isFile e.path then
      if env.deleteOk e.path then
        ({ files_deleted := st.files_deleted + 1,
           size_freed := st.size_freed + e.size.getD 0,
           errors := st.errors, fs := fs1.removePath e.path }, .deleted)
      else
        ({ st with fs := fs1, errors := st.errors ++ [cleanErrorMsg env e.path] }, .failed)
    else if fs1.isDir e.path then
      if env.deleteOk e.path then
        ({ files_deleted := st.files_deleted + 1,
           size_freed := st.size_freed + e.size.getD 0,
           errors := st.errors, fs := fs1.removeTree e.path }, .deleted)
      else
        ({ st with fs := fs1, errors := st.errors ++ [cleanErrorMsg env e.path] }, .failed)
    else
      -- In the source an existing path that is neither a file nor a
      -- directory would fall through both branches and still be counted;
      -- in this model every existing path is a file or a directory, and
      -- this branch is proved unreachable below.
      ({ files_deleted := st.files_deleted + 1,
         size_freed := st.size_freed + e.size.getD 0,
         errors := st.errors, fs := fs1 }, .deleted)

/-- `cleaner.DiskCleaner._clean_category`, instrumented with the per-item
outcome log. -/
def cleanCategoryRun (env : Oracles) (userProfile : String) (create_backup : Bool)
    (backup_path : Option String) (category_name : String)
    (st : CleanerState) : List FileInfo → CleanerState × List (FileInfo × Outcome)
  | [] => (st, [])
  | e :: rest =>
    let s1 := clean_step env userProfile create_backup backup_path category_name st e
    let s2 := cleanCategoryRun env userProfile create_backup backup_path category_name s1.1 rest
    (s2.1, (e, s1.2) :: s2.2)

/-- `cleaner.DiskCleaner._clean_category` (the state after processing the
category's file list). -/
def clean_category (env : Oracles) (userProfile : String) (create_backup : Bool)
    (backup_path : Option String) (category_name : String)
    (st : CleanerState) (files : List FileInfo) : CleanerState :=
  (cleanCategoryRun env userProfile create_backup backup_path category_name st files).1

/-- Lookup in the request's `files_by_category` mapping. -/
def lookupFBC (fbc : List (String × List FileInfo)) (n : String) : Option (List FileInfo) :=
  (fbc.find? (fun kv => kv.1 == n)).map (fun kv => kv.2)

/-- The per-category loop of `cleaner.DiskCleaner.cleanup_categories`:
a requested name absent from `files_by_category` is skipped with only a
log warning; a name whose registry lookup raises gets a category-level
error appended and its files are not touched; otherwise the category is
cleaned.  Instrumented with the concatenated per-item outcome log. -/
def cleanupCatsRun (env : Oracles) (userProfile : String) (create_backup : Bool)
    (backup_path : Option String) (fbc : List (String × List FileInfo)) :
    List String → CleanerState → CleanerState × List (FileInfo × Outcome)
  | [], st => (st, [])
  | c :: rest, st =>
    match lookupFBC fbc c with
    | none => cleanupCatsRun env userProfile create_backup backup_path fbc rest st
    | some files =>
      match get_category_by_name c with
      | .error msg =>
        cleanupCatsRun env userProfile create_backup backup_path fbc rest
          { st with errors := st.errors ++ ["Error cleaning category " ++ c ++ ": " ++ msg] }
      | .ok _ =>
        let s1 := cleanCategoryRun env userProfile create_backup backup_path c st files
        let s2 := cleanupCatsRun env userProfile create_backup backup_path fbc rest s1.1
        (s2.1, s1.2 ++ s2.2)

/-- `cleaner.DiskCleaner._get_backup_root`. -/
def backupRootFor (userProfile : String) : String :=
  joinPath (joinPath userProfile ".ai-infra-monitor") "cleanup_backup"

/-- The backup directory created by `cleanup_categories`
(`f"scan_{self.scan_id}_{timestamp}"` under the backup root). -/
def backupPathFor (userProfile : String) (scan_id : Nat) (timestamp : String) : String :=
  joinPath (backupRootFor userProfile) ("scan_" ++ natRepr scan_id ++ "_" ++ timestamp)

/-- The dictionary returned by `cleanup_categories`. -/
structure CleanupResult where
  files_deleted : Nat
  size_freed : Nat
  backup_path : Option String
  errors : List String
deriving Repr, DecidableEq

/-- `cleaner.DiskCleaner.cleanup_categories` on a freshly constructed
`DiskCleaner` (counters zero, no prior errors), instrumented with the
final state and the per-item outcome log. -/
def cleanupCategoriesRun (env : Oracles) (userProfile : String) (scan_id : Nat)
    (timestamp : String) (fs0 : FS) (categories_to_clean : List String)
    (files_by_category : List (String × List FileInfo)) (create_backup : Bool) :
    CleanerState × List (FileInfo × Outcome) :=
  let fsA := fs0.makeDir (backupRootFor userProfile)
  let bp : Option String :=
    if create_backup then some (backupPathFor userProfile scan_id timestamp) else none
  let fsB := match bp with
    | some b => fsA.makeDir b
    | none => fsA
  cleanupCatsRun env userProfile create_backup bp files_by_category categories_to_clean
    { files_deleted := 0, size_freed := 0, errors := [], fs := fsB }

/-- The result dictionary of `cleaner.DiskCleaner.cleanup_categories`. -/
def cleanup_categories (env : Oracles) (userProfile : String) (scan_id : Nat)
    (timestamp : String) (fs0 : FS) (categories_to_clean : List String)
    (files_by_category : List (String × List FileInfo)) (create_backup : Bool) :
    CleanupResult :=
  let st := (cleanupCategoriesRun env userProfile scan_id timestamp fs0
    categories_to_clean files_by_category create_backup).1
  { files_deleted := st.files_deleted, size_freed := st.size_freed,
    backup_path :=
      if create_backup then some (backupPathFor userProfile scan_id timestamp) else none,
    errors := st.errors }

/-- The dictionary returned by `rollback`. -/
structure RollbackResult where
  files_restored : Nat
  errors : List String
deriving Repr, DecidableEq

/-- Number of files `os.walk(backupPath)` yields below `backupPath`. -/
def countFilesUnder (fs : FS) (root : String) : Nat :=
  (fs.entries.filter (fun e => isUnder root e.1 && e.2 == EntryKind.file)).length

/-- `cleaner.DiskCleaner.rollback`: without a recorded, still-existing
`backup_path` it raises `ValueError` (modelled as `Except.error`) before
touching anything; otherwise it only walks the backup tree and counts the
files it would restore — it never mutates the filesystem.  The returned
pair carries the (unchanged) filesystem. -/
def rollback (fs : FS) (backup_path : Option String) :
    Except String RollbackResult × FS :=
  match backup_path with
  | none => (.error "Backup path not found, cannot rollback", fs)
  | some bp =>
    if !fs.existsPath bp then (.error "Backup path not found, cannot rollback", fs)
    else (.ok { files_restored := countFilesUnder fs bp, errors := [] }, fs)

/-! ## `scanner.py`

`os.walk` is modelled over an explicit directory tree.  A file record's
`atimeMs` is `none` when reading the file's metadata raises
(`os.stat`/`os.path.getatime`), which makes the scan skip the file. -/

/-- A file inside a scanned directory. -/
structure FileRec where
  name : String
  size : Nat
  atimeMs : Option Int
deriving Repr, DecidableEq

/-- A directory tree rooted at one scan base path. -/
inductive DirTree where
  | node (name : String) (subdirs : List DirTree) (files : List FileRec)

/-- Name of the root directory. -/
def DirTree.name : DirTree → String
  | .node n _ _ => n

/-- Subdirectories of the root. -/
def DirTree.subdirs : DirTree → List DirTree
  | .node _ s _ => s

/-- Files directly inside the root. -/
def DirTree.files : DirTree → List FileRec
  | .node _ _ f => f

/-- One entry of a category's scan result (`last_accessed` is carried by
the source as an ISO string for display only and is omitted here). -/
structure ScanEntry where
  path : String
  size : Nat
  is_safe : Bool
  risk_level : String
deriving Repr, DecidableEq

mutual
/-- Total size of all files anywhere below the root — the inner
`os.walk` sum that `_scan_dev_cache` uses as the recorded entry size. -/
def treeSize : DirTree → Nat
  | .node _ subdirs files =>
    (files.map (fun f => f.size)).sum + treeSizeList subdirs

/-- Sum of `treeSize` over a list of subtrees. -/
def treeSizeList : List DirTree → Nat
  | [] => 0
  | c :: cs => treeSize c + treeSizeList cs
end

/-- `scanner.DiskScanner._scan_dev_cache`'s cache-directory name list. -/
def cacheDirNames : List String :=
  ["node_modules", "__pycache__", ".cache", ".next", "dist", "build"]

mutual
/-- The walk of `scanner.DiskScanner._scan_dev_cache`: at each directory,
if its basename is a known cache-directory name, record the whole
directory as one entry (with its total recursive size) and do not descend;
otherwise descend unless the relative depth exceeds 4.  No path-protection
check is performed anywhere in this scan. -/
def scanDevNode : String → Nat → DirTree → List ScanEntry
  | path, depth, .node nm subdirs files =>
    if cacheDirNames.contains (basename path) then
      [{ path := path, size := treeSize (.node nm subdirs files),
         is_safe := false, risk_level := "high" }]
    else if depth > 4 then []
    else scanDevChildren path depth subdirs

/-- The dev-cache walk over a directory's subdirectories, in order. -/
def scanDevChildren : String → Nat → List DirTree → List ScanEntry
  | _, _, [] => []
  | path, depth, c :: cs =>
    scanDevNode (joinPath path c.name) (depth + 1) c ++ scanDevChildren path depth cs
end

/-- `scanner.DiskScanner._scan_dev_cache` over one base path whose contents
are `t` (so `t` is the directory at `basePath`). -/
def scan_dev_cache (basePath : String) (t : DirTree) : List ScanEntry :=
  scanDevNode basePath 0 t

mutual
/-- The walk of `scanner.DiskScanner._scan_temp_files`: a directory whose
path is protected contributes no files (`continue`) but is still descended
into (the `continue` also skips the depth check); an unprotected directory
contributes its files old enough per `is_file_old_enough` with a 7-day
threshold, and is descended into only up to relative depth 3. -/
def scanTempNode (userProfile : String) (nowMs : Int) :
    String → Nat → DirTree → List ScanEntry
  | path, depth, .node _ subdirs files =>
    let here :=
      if is_path_protected userProfile path then []
      else
        files.filterMap (fun f =>
          if is_file_old_enough f.atimeMs nowMs 7 then
            some { path := joinPath path f.name, size := f.size,
                   is_safe := true, risk_level := "low" }
          else none)
    let below :=
      if !is_path_protected userProfile path && depth > 3 then []
      else scanTempChildren userProfile nowMs path depth subdirs
    here ++ below

/-- The temp-file walk over a directory's subdirectories, in order. -/
def scanTempChildren (userProfile : String) (nowMs : Int) :
    String → Nat → List DirTree → List ScanEntry
  | _, _, [] => []
  | path, depth, c :: cs =>
    scanTempNode userProfile nowMs (joinPath path c.name) (depth + 1) c ++
      scanTempChildren userProfile nowMs path depth cs
end

/-- `scanner.DiskScanner._scan_temp_files` over one base path whose
contents are `t`. -/
def scan_temp_files (userProfile : String) (nowMs : Int) (basePath : String)
    (t : DirTree) : List ScanEntry :=
  scanTempNode userProfile nowMs basePath 0 t

/-- The per-category result dictionary built by
`scanner.DiskScanner._scan_category` (in the `error` branch of
`scan_all_categories` the source dict carries only the first three keys
and `error`; the display metadata is filled with empty defaults here). -/
structure CategoryScanResult where
  files : List ScanEntry
  total_size : Nat
  file_count : Nat
  display_name : String
  description : String
  risk_level : String
  is_safe_auto : Bool
  error : Option String
deriving Repr, DecidableEq

/-- `scanner.DiskScanner._scan_category`, abstracted over the per-base-path
scan outputs `perPath` (one list of entries per existing base path): the
returned `files` are the accumulated entries truncated to the first 100,
while `file_count` and `total_size` are computed from all entries. -/
def category_scan_result (perPath : List (List ScanEntry)) (c : CleanupCategory) :
    CategoryScanResult :=
  { files := perPath.flatten.take 100,
    total_size := (perPath.map (fun l => (l.map (fun f => f.size)).sum)).sum,
    file_count := perPath.flatten.length,
    display_name := c.display_name, description := c.description,
    risk_level := c.risk_level, is_safe_auto := c.is_safe_auto,
    error := none }

/-- The zeroed result recorded by `scan_all_categories` when scanning a
category raises. -/
def errorCategoryResult (e : String) : CategoryScanResult :=
  { files := [], total_size := 0, file_count := 0,
    display_name := "", description := "", risk_level := "",
    is_safe_auto := false, error := some e }

/-- The report returned by `scanner.DiskScanner.scan_all_categories`
(`disk_info` and `scanned_at` are display-only and omitted). -/
structure ScanReport where
  categories : List CategoryScanResult
  total_size : Nat
  total_files : Nat
deriving Repr, DecidableEq

/-- `scanner.DiskScanner.scan_all_categories`, abstracted over each
category's scan outcome (`.ok` with its per-base-path entry lists, or
`.error` when scanning the category raised): per-category results are
collected and the report totals are the sums of the per-category
statistics. -/
def scan_all_categories
    (outcomes : List (CleanupCategory × Except String (List (List ScanEntry)))) :
    ScanReport :=
  let results := outcomes.map (fun oc =>
    match oc.2 with
    | .ok pp => category_scan_result pp oc.1
    | .error e => errorCategoryResult e)
  { categories := results,
    total_size := (results.map (fun r => r.total_size)).sum,
    total_files := (results.map (fun r => r.file_count)).sum }

/-! ## Theorems -/

/-- The loop of `is_path_protected`, characterized: it returns `true` iff
some protected directory is a string prefix of the path and the path does
not contain `Temp` or `Cache` as a substring. -/
theorem protectedLoop_eq_true_iff (p : String) (l : List String) :
    protectedLoop p l = true ↔
      ((∃ d ∈ l, strStartsWith p d = true) ∧
        ¬(strContains p "Temp" = true ∨ strContains p "Cache" = true)) := by
  induction l with
  | nil => simp [protectedLoop]
  | cons d rest ih =>
    simp only [protectedLoop]
    by_cases hs : strStartsWith p d
    · by_cases hT : strContains p "Temp"
      · simp [hs, hT, ih]
      · by_cases hC : strContains p "Cache"
        · simp [hs, hT, hC, ih]
        · simp [hs, hT, hC]
    · simp [hs, ih]

/-- C5.  `is_path_protected` returns `true` exactly when the (absolute)
path extends one of the fixed protected directories — system binaries,
program-install directories, `ProgramData`, and the user's
Documents/Pictures/Videos/Music/Desktop folders — as a string prefix,
except that any path containing the substring `Temp` or `Cache` is
exempted and yields `false` even under a protected directory. -/
theorem is_path_protected_iff (userProfile path : String) :
    is_path_protected userProfile path = true ↔
      ((∃ d ∈ PROTECTED_DIRECTORIES userProfile, strStartsWith path d = true) ∧
        ¬(strContains path "Temp" = true ∨ strContains path "Cache" = true)) :=
  protectedLoop_eq_true_iff path (PROTECTED_DIRECTORIES userProfile)

mutual
/-- Every entry produced by the temp-file walk comes from a file whose
recorded access time is strictly more than 7 days before `nowMs`. -/
theorem scanTempNode_age (userProfile : String) (nowMs : Int) :
    ∀ (path : String) (depth : Nat) (t : DirTree) (e : ScanEntry),
      e ∈ scanTempNode userProfile nowMs path depth t →
      ∃ (f : FileRec) (tms : Int), f.atimeMs = some tms ∧
        nowMs - tms > 7 * 86400000 ∧ e.size = f.size ∧
        ∃ pp, e.path = joinPath pp f.name := by
  intro path depth t e he
  cases t with
  | node nm subdirs files =>
    simp only [scanTempNode] at he
    rw [List.mem_append] at he
    rcases he with he | he
    · by_cases hp : is_path_protected userProfile path
      · simp [hp] at he
      · simp only [hp, if_false, Bool.false_eq_true] at he
        rcases List.mem_filterMap.mp he with ⟨f, hf, heq⟩
        by_cases hold : is_file_old_enough f.atimeMs nowMs 7
        · rw [if_pos hold] at heq
          cases hat : f.atimeMs with
          | none => rw [hat] at hold; simp [is_file_old_enough] at hold
          | some tms =>
            refine ⟨f, tms, hat, ?_, ?_, path, ?_⟩
            · rw [hat] at hold
              simp only [is_file_old_enough] at hold
              have : tms < nowMs - 7 * 86400000 := of_decide_eq_true hold
              omega
            · cases heq; rfl
            · cases heq; rfl
        · rw [if_neg hold] at heq; cases heq
    · by_cases hg : (!is_path_protected userProfile path && decide (depth > 3)) = true
      · simp [hg] at he
      · rw [if_neg hg] at he
        exact scanTempChildren_age userProfile nowMs path depth subdirs e he

/-- As `scanTempNode_age`, for the walk over a subdirectory list. -/
theorem scanTempChildren_age (userProfile : String) (nowMs : Int) :
    ∀ (path : String) (depth : Nat) (l : List DirTree) (e : ScanEntry),
      e ∈ scanTempChildren userProfile nowMs path depth l →
      ∃ (f : FileRec) (tms : Int), f.atimeMs = some tms ∧
        nowMs - tms > 7 * 86400000 ∧ e.size = f.size ∧
        ∃ pp, e.path = joinPath pp f.name := by
  intro path depth l e he
  cases l with
  | nil => simp [scanTempChildren] at he
  | cons c cs =>
    simp only [scanTempChildren] at he
    rw [List.mem_append] at he
    rcases he with he | he
    · exact scanTempNode_age userProfile nowMs (joinPath path c.name) (depth + 1) c e he
    · exact scanTempChildren_age userProfile nowMs path depth cs e he
end

/-- C3 (amended).  A file is included by the temp-file scan only if its
age is strictly greater than 7 days: every returned entry originates from
a file whose access time is strictly more than 7 days before the scan
time, and the inclusion predicate holds exactly on the strict inequality,
so a file exactly 7 days old is excluded (as is one 6.999 days old). -/
theorem temp_scan_included_only_if_strictly_older (userProfile basePath : String)
    (nowMs : Int) (t : DirTree) (e : ScanEntry)
    (he : e ∈ scan_temp_files userProfile nowMs basePath t) :
    (∃ (f : FileRec) (tms : Int), f.atimeMs = some tms ∧
      nowMs - tms > 7 * 86400000 ∧ e.size = f.size ∧
      ∃ pp, e.path = joinPath pp f.name) ∧
    (∀ a : Int, is_file_old_enough (some a) nowMs 7 = true ↔ nowMs - a > 7 * 86400000) := by
  refine ⟨scanTempNode_age userProfile nowMs basePath 0 t e he, ?_⟩
  intro a
  simp only [is_file_old_enough]
  constructor
  · intro h
    have : a < nowMs - 7 * 86400000 := of_decide_eq_true h
    omega
  · intro h
    exact decide_eq_true (by omega)

/-- The concrete directory used to exhibit the 7-day boundary: one file
8 days old and one exactly 7 days old (times in ms; `now = 691200000`,
i.e. 8 days). -/
def tempTreeC3 : DirTree :=
  .node "T" []
    [ { name := "old8.tmp", size := 10, atimeMs := some 0 },
      { name := "exact7.tmp", size := 20, atimeMs := some 86400000 } ]

/-- C3 (counterexample).  The claim says a file whose last-access time
lies exactly 7 days in the past is included; in the code the comparison is
strict, so the file `exact7.tmp`, exactly 7 days old at scan time, is
rejected by `is_file_old_enough` and absent from the temp-scan result. -/
theorem temp_scan_exact_7_days_excluded :
    (691200000 : Int) - 86400000 = 7 * 86400000 ∧
    is_file_old_enough (some 86400000) 691200000 7 = false ∧
    (scan_temp_files "C:\\Users\\alice" 691200000 "C:\\T" tempTreeC3).map
      (fun e => e.path) = ["C:\\T\\old8.tmp"] := by decide

/-- Witness for `temp_scan_included_only_if_strictly_older` at a concrete
scan: the 8-day-old file is returned, and the theorem yields its
strictly-older-than-7-days provenance. -/
theorem temp_scan_included_only_if_strictly_older_witness :
    ({ path := "C:\\T\\old8.tmp", size := 10, is_safe := true, risk_level := "low" } : ScanEntry)
      ∈ scan_temp_files "C:\\Users\\alice" 691200000 "C:\\T" tempTreeC3 ∧
    ((∃ (f : FileRec) (tms : Int), f.atimeMs = some tms ∧
        (691200000 : Int) - tms > 7 * 86400000 ∧
        ({ path := "C:\\T\\old8.tmp", size := 10, is_safe := true, risk_level := "low" } : ScanEntry).size = f.size ∧
        ∃ pp, ({ path := "C:\\T\\old8.tmp", size := 10, is_safe := true, risk_level := "low" } : ScanEntry).path = joinPath pp f.name) ∧
      (∀ a : Int, is_file_old_enough (some a) 691200000 7 = true ↔ (691200000 : Int) - a > 7 * 86400000)) :=
  ⟨by decide,
   temp_scan_included_only_if_strictly_older "C:\\Users\\alice" "C:\\T" 691200000 tempTreeC3 _ (by decide)⟩

/-- A protected path makes the cleanup step a no-op with outcome
`skipped` (the safety check precedes everything else). -/
theorem clean_step_protected (env : Oracles) (userProfile : String) (cb : Bool)
    (bp : Option String) (cat : String) (st : CleanerState) (e : FileInfo)
    (h : is_path_protected userProfile e.path = true) :
    clean_step env userProfile cb bp cat st e = (st, Outcome.skipped) := by
  simp [clean_step, h]

/-- No item with outcome `deleted` in a category run has a protected path. -/
theorem cleanCategoryRun_deleted_not_protected (env : Oracles) (userProfile : String)
    (cb : Bool) (bp : Option String) (cat : String) :
    ∀ (files : List FileInfo) (st : CleanerState) pr,
      pr ∈ (cleanCategoryRun env userProfile cb bp cat st files).2 →
      pr.2 = Outcome.deleted → is_path_protected userProfile pr.1.path = false := by
  intro files
  induction files with
  | nil => intro st pr h _; simp [cleanCategoryRun] at h
  | cons e rest ih =>
    intro st pr h hd
    simp only [cleanCategoryRun] at h
    rcases List.mem_cons.mp h with h | h
    · subst h
      by_contra hp
      rw [Bool.not_eq_false] at hp
      rw [clean_step_protected env userProfile cb bp cat st e hp] at hd
      exact Outcome.noConfusion hd
    · exact ih _ pr h hd

/-- C2 (amended).  The cleaner never deletes a path for which
`is_path_protected` returns true, even when the path is explicitly
supplied in the request's per-category file list: the per-item safety
check turns such an item into a skip that changes nothing, and no item of
any category run that was actually deleted has a protected path.  (The
scan half of the original claim is false: see the dev-cache
counterexample.) -/
theorem protected_paths_never_deleted (env : Oracles) (userProfile : String)
    (cb : Bool) (bp : Option String) (cat : String) :
    (∀ (st : CleanerState) (e : FileInfo), is_path_protected userProfile e.path = true →
      clean_step env userProfile cb bp cat st e = (st, Outcome.skipped)) ∧
    (∀ (files : List FileInfo) (st : CleanerState) pr,
      pr ∈ (cleanCategoryRun env userProfile cb bp cat st files).2 →
      pr.2 = Outcome.deleted → is_path_protected userProfile pr.1.path = false) :=
  ⟨fun st e h => clean_step_protected env userProfile cb bp cat st e h,
   cleanCategoryRun_deleted_not_protected env userProfile cb bp cat⟩

/-- The all-success environment used by concrete witnesses. -/
def envAllOk : Oracles :=
  { backupOk := fun _ => true, deleteOk := fun _ => true, deleteErr := fun _ => "denied" }

/-- Witness for `protected_paths_never_deleted`: a file under the user's
Documents folder, explicitly supplied, is skipped untouched. -/
theorem protected_paths_never_deleted_witness :
    is_path_protected "C:\\U"
      ({ path := "C:\\U\\Documents\\report.docx", size := some 3 } : FileInfo).path = true ∧
    clean_step envAllOk "C:\\U" false none "temp_files"
        { files_deleted := 0, size_freed := 0, errors := [],
          fs := ⟨[("C:\\U\\Documents\\report.docx", EntryKind.file)]⟩ }
        { path := "C:\\U\\Documents\\report.docx", size := some 3 } =
      ({ files_deleted := 0, size_freed := 0, errors := [],
         fs := ⟨[("C:\\U\\Documents\\report.docx", EntryKind.file)]⟩ }, Outcome.skipped) :=
  ⟨by decide,
   (protected_paths_never_deleted envAllOk "C:\\U" false none "temp_files").1
     { files_deleted := 0, size_freed := 0, errors := [],
       fs := ⟨[("C:\\U\\Documents\\report.docx", EntryKind.file)]⟩ }
     { path := "C:\\U\\Documents\\report.docx", size := some 3 } (by decide)⟩

/-- The concrete Documents tree used to exhibit a protected path in a
dev-cache scan result: `Documents\proj\node_modules` holds one file. -/
def devTreeC2 : DirTree :=
  .node "Documents"
    [ .node "proj"
        [ .node "node_modules" [] [ { name := "a.js", size := 7, atimeMs := some 0 } ] ]
        [] ]
    []

/-- C2 (counterexample).  The dev-cache scan performs no
`is_path_protected` check: scanning the user's Documents folder returns
the path `...\Documents\proj\node_modules`, for which `is_path_protected`
is true — a protected path appears in the category's scan result set,
contradicting the claim's scan half. -/
theorem dev_scan_returns_protected_path :
    is_path_protected "C:\\Users\\alice"
      "C:\\Users\\alice\\Documents\\proj\\node_modules" = true ∧
    "C:\\Users\\alice\\Documents\\proj\\node_modules" ∈
      (scan_dev_cache (joinPath "C:\\Users\\alice" "Documents") devTreeC2).map
        (fun e => e.path) := by decide

/-- C4.  Per-category scan results list at most the first 100 entries
found, while `file_count` and `total_size` are the count and summed size
of all entries found before truncation; and the report totals of
`scan_all_categories` are the sums of these unpruned per-category
statistics. -/
theorem scan_truncation_preserves_statistics (perPath : List (List ScanEntry))
    (c : CleanupCategory)
    (outcomes : List (CleanupCategory × Except String (List (List ScanEntry)))) :
    (category_scan_result perPath c).files = perPath.flatten.take 100 ∧
    (category_scan_result perPath c).files.length ≤ 100 ∧
    (category_scan_result perPath c).file_count = perPath.flatten.length ∧
    (category_scan_result perPath c).total_size =
      (perPath.flatten.map (fun f => f.size)).sum ∧
    (scan_all_categories outcomes).total_files =
      ((scan_all_categories outcomes).categories.map (fun r => r.file_count)).sum ∧
    (scan_all_categories outcomes).total_size =
      ((scan_all_categories outcomes).categories.map (fun r => r.total_size)).sum := by
  refine ⟨rfl, ?_, rfl, ?_, rfl, rfl⟩
  · simp [category_scan_result]
  · show (perPath.map (fun l => (l.map (fun f => f.size)).sum)).sum = _
    rw [List.map_flatten, List.sum_flatten, List.map_map]
    rfl

/-- C7.  When no backup path was recorded, or the recorded one no longer
exists on disk, `rollback` fails with the no-backup error before touching
anything, and the filesystem is returned unchanged. -/
theorem rollback_without_backup_fails_without_mutation (fs : FS) (bp : Option String)
    (h : bp.all (fun b => !fs.existsPath b) = true) :
    (rollback fs bp).1 = Except.error "Backup path not found, cannot rollback" ∧
    (rollback fs bp).2 = fs := by
  cases bp with
  | none => exact ⟨rfl, rfl⟩
  | some b =>
    have hb : fs.existsPath b = false := by simpa [Option.all] using h
    simp [rollback, hb]

/-- Witness for `rollback_without_backup_fails_without_mutation`: a
recorded backup path that does not exist on an empty disk. -/
theorem rollback_without_backup_witness :
    Option.all (fun b => !FS.existsPath ⟨[]⟩ b) (some "B\\x") = true ∧
    ((rollback ⟨[]⟩ (some "B\\x")).1 =
        Except.error "Backup path not found, cannot rollback" ∧
      (rollback ⟨[]⟩ (some "B\\x")).2 = (⟨[]⟩ : FS)) :=
  ⟨by decide,
   rollback_without_backup_fails_without_mutation ⟨[]⟩ (some "B\\x") (by decide)⟩

/-- A vanished path makes the cleanup step a no-op with outcome
`skipped`. -/
theorem clean_step_vanished (env : Oracles) (userProfile : String) (cb : Bool)
    (bp : Option String) (cat : String) (st : CleanerState) (e : FileInfo)
    (h : st.fs.existsPath e.path = false) :
    clean_step env userProfile cb bp cat st e = (st, Outcome.skipped) := by
  by_cases hp : is_path_protected userProfile e.path
  · exact clean_step_protected env userProfile cb bp cat st e hp
  · simp [clean_step, hp, h]

/-- C8.  Cleaning a category all of whose listed paths no longer exist on
disk leaves the cleaner state exactly as it was — counters unchanged
(`files_deleted = 0`, `size_freed = 0` increments), no error recorded —
and every item's outcome is a silent skip. -/
theorem cleanup_already_cleaned_is_noop (env : Oracles) (userProfile : String)
    (cb : Bool) (bp : Option String) (cat : String) :
    ∀ (files : List FileInfo) (st : CleanerState),
      files.all (fun e => !st.fs.existsPath e.path) = true →
      cleanCategoryRun env userProfile cb bp cat st files
          = (st, files.map (fun e => (e, Outcome.skipped))) ∧
        clean_category env userProfile cb bp cat st files = st := by
  intro files
  induction files with
  | nil => intro st _; exact ⟨rfl, rfl⟩
  | cons e rest ih =>
    intro st h
    rw [List.all_cons, Bool.and_eq_true] at h
    have h1 : st.fs.existsPath e.path = false := by
      rcases h with ⟨h1, _⟩
      rwa [Bool.not_eq_eq_eq_not, Bool.not_true] at h1
    have hstep := clean_step_vanished env userProfile cb bp cat st e h1
    have hrest := ih st h.2
    constructor
    · show (let s1 := clean_step env userProfile cb bp cat st e
            let s2 := cleanCategoryRun env userProfile cb bp cat s1.1 rest
            (s2.1, (e, s1.2) :: s2.2)) = _
      rw [hstep]
      simp only [List.map_cons]
      rw [hrest.1]
    · show (cleanCategoryRun env userProfile cb bp cat st (e :: rest)).1 = st
      have : cleanCategoryRun env userProfile cb bp cat st (e :: rest)
          = (st, (e :: rest).map (fun e => (e, Outcome.skipped))) := by
        show (let s1 := clean_step env userProfile cb bp cat st e
              let s2 := cleanCategoryRun env userProfile cb bp cat s1.1 rest
              (s2.1, (e, s1.2) :: s2.2)) = _
        rw [hstep]
        simp only [List.map_cons]
        rw [hrest.1]
      rw [this]

/-- Witness for `cleanup_already_cleaned_is_noop`: re-cleaning a category
whose single listed file has already vanished. -/
theorem cleanup_already_cleaned_witness :
    ([({ path := "C:\\X\\gone.tmp", size := some 4 } : FileInfo)].all
        (fun e => !FS.existsPath ⟨[]⟩ e.path) = true) ∧
    (cleanCategoryRun envAllOk "C:\\U" false none "temp_files"
          { files_deleted := 0, size_freed := 0, errors := [], fs := ⟨[]⟩ }
          [{ path := "C:\\X\\gone.tmp", size := some 4 }]
        = ({ files_deleted := 0, size_freed := 0, errors := [], fs := ⟨[]⟩ },
           [({ path := "C:\\X\\gone.tmp", size := some 4 }, Outcome.skipped)]) ∧
      clean_category envAllOk "C:\\U" false none "temp_files"
          { files_deleted := 0, size_freed := 0, errors := [], fs := ⟨[]⟩ }
          [{ path := "C:\\X\\gone.tmp", size := some 4 }]
        = { files_deleted := 0, size_freed := 0, errors := [], fs := ⟨[]⟩ }) :=
  ⟨by decide,
   cleanup_already_cleaned_is_noop envAllOk "C:\\U" false none "temp_files"
     [{ path := "C:\\X\\gone.tmp", size := some 4 }]
     { files_deleted := 0, size_freed := 0, errors := [], fs := ⟨[]⟩ } (by decide)⟩

/-- C6 (amended).  Looking up an unregistered category name fails with the
`Unknown cleanup category` error; inside `cleanup_categories` that failure
is caught rather than surfaced immediately: the error message is appended
to the result's `errors` list, none of that category's files are
processed, and cleanup proceeds with the remaining categories.  A
requested name that is also absent from `files_by_category` is skipped
silently, recording no error at all. -/
theorem category_not_found_recorded_not_fatal (c : String)
    (hc : CLEANUP_CATEGORIES.find? (fun kv => kv.1 == c) = none) :
    get_category_by_name c = Except.error ("Unknown cleanup category: " ++ c) ∧
    (∀ (env : Oracles) (userProfile : String) (cb : Bool) (bp : Option String)
        (fbc : List (String × List FileInfo)) (rest : List String)
        (st : CleanerState) (files : List FileInfo),
      lookupFBC fbc c = some files →
      cleanupCatsRun env userProfile cb bp fbc (c :: rest) st =
        cleanupCatsRun env userProfile cb bp fbc rest
          { st with errors := st.errors ++
              ["Error cleaning category " ++ c ++ ": " ++
                ("Unknown cleanup category: " ++ c)] }) ∧
    (∀ (env : Oracles) (userProfile : String) (cb : Bool) (bp : Option String)
        (fbc : List (String × List FileInfo)) (rest : List String)
        (st : CleanerState),
      lookupFBC fbc c = none →
      cleanupCatsRun env userProfile cb bp fbc (c :: rest) st =
        cleanupCatsRun env userProfile cb bp fbc rest st) := by
  have h1 : get_category_by_name c = Except.error ("Unknown cleanup category: " ++ c) := by
    simp only [get_category_by_name, hc]
  refine ⟨h1, ?_, ?_⟩
  · intro env userProfile cb bp fbc rest st files hl
    simp only [cleanupCatsRun, hl, h1]
  · intro env userProfile cb bp fbc rest st hl
    simp only [cleanupCatsRun, hl]

/-- C6 (counterexample).  With the unregistered name `bogus` first in the
request (and present in `files_by_category`), the lookup failure is not
surfaced immediately and the operation still proceeds: the result carries
the category error *and* reports one deleted file from the subsequent
`temp_files` category. -/
theorem category_not_found_operation_proceeds :
    (cleanup_categories envAllOk "C:\\U" 1 "ts" ⟨[("C:\\X\\a.tmp", EntryKind.file)]⟩
        ["bogus", "temp_files"]
        [("bogus", [{ path := "C:\\X\\b.tmp", size := some 1 }]),
         ("temp_files", [{ path := "C:\\X\\a.tmp", size := some 5 }])]
        false).errors
      = ["Error cleaning category bogus: Unknown cleanup category: bogus"] ∧
    (cleanup_categories envAllOk "C:\\U" 1 "ts" ⟨[("C:\\X\\a.tmp", EntryKind.file)]⟩
        ["bogus", "temp_files"]
        [("bogus", [{ path := "C:\\X\\b.tmp", size := some 1 }]),
         ("temp_files", [{ path := "C:\\X\\a.tmp", size := some 5 }])]
        false).files_deleted = 1 ∧
    (cleanup_categories envAllOk "C:\\U" 1 "ts" ⟨[("C:\\X\\a.tmp", EntryKind.file)]⟩
        ["bogus", "temp_files"]
        [("bogus", [{ path := "C:\\X\\b.tmp", size := some 1 }]),
         ("temp_files", [{ path := "C:\\X\\a.tmp", size := some 5 }])]
        false).size_freed = 5 := by decide

/-- Witness for `category_not_found_recorded_not_fatal` at the name
`bogus` and a concrete one-category request. -/
theorem category_not_found_recorded_witness :
    CLEANUP_CATEGORIES.find? (fun kv => kv.1 == "bogus") = none ∧
    lookupFBC [("bogus", [({ path := "C:\\X\\b.tmp", size := some 1 } : FileInfo)])] "bogus"
      = some [{ path := "C:\\X\\b.tmp", size := some 1 }] ∧
    cleanupCatsRun envAllOk "C:\\U" false none
        [("bogus", [{ path := "C:\\X\\b.tmp", size := some 1 }])] ["bogus"]
        { files_deleted := 0, size_freed := 0, errors := [], fs := ⟨[]⟩ } =
      cleanupCatsRun envAllOk "C:\\U" false none
        [("bogus", [{ path := "C:\\X\\b.tmp", size := some 1 }])] []
        { files_deleted := 0, size_freed := 0,
          errors := [] ++ ["Error cleaning category " ++ "bogus" ++ ": " ++
            ("Unknown cleanup category: " ++ "bogus")], fs := ⟨[]⟩ } :=
  ⟨by decide, by decide,
   (category_not_found_recorded_not_fatal "bogus" (by decide)).2.1 envAllOk "C:\\U"
     false none [("bogus", [{ path := "C:\\X\\b.tmp", size := some 1 }])] []
     { files_deleted := 0, size_freed := 0, errors := [], fs := ⟨[]⟩ }
     [{ path := "C:\\X\\b.tmp", size := some 1 }] (by decide)⟩

/-- Appending entries preserves a positive existence test. -/
theorem existsPath_append_of (fs : FS) (tail : List (String × EntryKind)) (p : String)
    (h : fs.existsPath p = true) : FS.existsPath ⟨fs.entries ++ tail⟩ p = true := by
  rw [FS.existsPath] at h ⊢
  rw [List.any_append, h, Bool.true_or]

/-- Appending entries does not change the kind seen at an existing path. -/
theorem lookupKind_append_of (fs : FS) (tail : List (String × EntryKind)) (p : String)
    (h : fs.existsPath p = true) :
    FS.lookupKind ⟨fs.entries ++ tail⟩ p = fs.lookupKind p := by
  rw [FS.lookupKind, FS.lookupKind]
  rw [show (FS.mk (fs.entries ++ tail)).entries = fs.entries ++ tail from rfl]
  rw [List.find?_append]
  rcases hf : fs.entries.find? (fun e => e.1 == p) with _ | v
  · exfalso
    rw [FS.existsPath, List.any_eq_true] at h
    have : (fs.entries.find? (fun e => e.1 == p)).isSome := List.find?_isSome.mpr h
    rw [hf] at this
    exact Bool.noConfusion this
  · rw [hf, Option.or_some]

/-- `makeDir` only appends (at most one) entry. -/
theorem makeDir_entries (fs : FS) (p : String) :
    ∃ tail, (fs.makeDir p).entries = fs.entries ++ tail := by
  rw [FS.makeDir]
  split
  · exact ⟨[], (List.append_nil _).symm⟩
  · exact ⟨[(p, EntryKind.dir)], rfl⟩

/-- `backup_item` only appends entries: the pre-existing disk content,
and in particular the item being backed up, is untouched. -/
theorem backup_item_entries (ok : String → Bool) (bp cat : String) (fs : FS) (p : String) :
    ∃ tail, (backup_item ok bp cat fs p).entries = fs.entries ++ tail := by
  obtain ⟨t1, ht1⟩ := makeDir_entries fs (joinPath bp cat)
  simp only [backup_item]
  split
  · exact ⟨[], (List.append_nil _).symm⟩
  · split
    · refine ⟨t1 ++ [(backupDest (fs.makeDir (joinPath bp cat)) (joinPath bp cat) p,
        EntryKind.file)], ?_⟩
      rw [FS.addEntry]
      show (fs.makeDir (joinPath bp cat)).entries ++ _ = _
      rw [ht1, List.append_assoc]
    · split
      · refine ⟨t1 ++ ((backupDest (fs.makeDir (joinPath bp cat)) (joinPath bp cat) p,
          EntryKind.dir) ::
          (fs.makeDir (joinPath bp cat)).entries.filterMap (fun e =>
            if isUnder p e.1 then
              some (backupDest (fs.makeDir (joinPath bp cat)) (joinPath bp cat) p ++
                (⟨e.1.data.drop p.data.length⟩ : String), e.2)
            else none)), ?_⟩
        rw [FS.copyTree]
        show (fs.makeDir (joinPath bp cat)).entries ++ _ = _
        rw [ht1, List.append_assoc]
      · exact ⟨t1, ht1⟩

/-- The backup phase of a cleanup step only appends entries. -/
theorem stepFS_entries (env : Oracles) (cb : Bool) (bp : Option String)
    (cat : String) (fs : FS) (p : String) :
    ∃ tail, (stepFS env cb bp cat fs p).entries = fs.entries ++ tail := by
  cases cb with
  | false => exact ⟨[], (List.append_nil _).symm⟩
  | true =>
    cases bp with
    | none => exact ⟨[], (List.append_nil _).symm⟩
    | some b => exact backup_item_entries env.backupOk b cat fs p

/-- An existing path is a file or a directory. -/
theorem isFile_or_isDir_of_exists (fs : FS) (p : String)
    (h : fs.existsPath p = true) : fs.isFile p = true ∨ fs.isDir p = true := by
  rw [FS.existsPath, List.any_eq_true] at h
  have hsome : (fs.entries.find? (fun e => e.1 == p)).isSome := List.find?_isSome.mpr h
  rcases hf : fs.entries.find? (fun e => e.1 == p) with _ | v
  · rw [hf] at hsome; exact Bool.noConfusion hsome
  · cases hk : v.2 with
    | file => left; simp [FS.isFile, FS.lookupKind, hf, hk]
    | dir => right; simp [FS.isDir, FS.lookupKind, hf, hk]

/-- After the backup phase, the item's path still exists and is still a
file or a directory (the backup only appends entries). -/
theorem stepFS_keeps_kind (env : Oracles) (cb : Bool) (bp : Option String)
    (cat : String) (fs : FS) (p : String) (h : fs.existsPath p = true) :
    (stepFS env cb bp cat fs p).existsPath p = true ∧
    ((stepFS env cb bp cat fs p).isFile p = true ∨
      (stepFS env cb bp cat fs p).isDir p = true) := by
  obtain ⟨t, ht⟩ := stepFS_entries env cb bp cat fs p
  have hfs : stepFS env cb bp cat fs p = ⟨fs.entries ++ t⟩ := by
    cases hq : stepFS env cb bp cat fs p with
    | mk es => rw [hq] at ht; simpa using ht
  rw [hfs]
  refine ⟨existsPath_append_of fs t p h, ?_⟩
  apply isFile_or_isDir_of_exists
  exact existsPath_append_of fs t p h

/-- `os.remove` really removes the path. -/
theorem existsPath_removePath_self (fs : FS) (p : String) :
    (fs.removePath p).existsPath p = false := by
  rw [FS.removePath, FS.existsPath, List.any_eq_false]
  intro x hx
  have := (List.mem_filter.mp hx).2
  intro hb
  rw [hb] at this
  exact Bool.noConfusion this

/-- `shutil.rmtree` really removes the root path. -/
theorem existsPath_removeTree_self (fs : FS) (p : String) :
    (fs.removeTree p).existsPath p = false := by
  rw [FS.removeTree, FS.existsPath, List.any_eq_false]
  intro x hx
  have h2 := (List.mem_filter.mp hx).2
  intro hb
  rw [Bool.not_eq_eq_eq_not, Bool.not_true, Bool.or_eq_false_iff] at h2
  rw [hb] at h2
  exact Bool.noConfusion h2.1

/-- An unprotected, existing item whose delete succeeds is deleted: both
counters advance (by one item and by the scan-recorded size), no error is
recorded, and the path is gone from the filesystem afterwards. -/
theorem clean_step_active_deleted (env : Oracles) (up : String) (cb : Bool)
    (bp : Option String) (cat : String) (st : CleanerState) (e : FileInfo)
    (hp : is_path_protected up e.path = false)
    (hex : st.fs.existsPath e.path = true)
    (hok : env.deleteOk e.path = true) :
    (clean_step env up cb bp cat st e).2 = Outcome.deleted ∧
    (clean_step env up cb bp cat st e).1.files_deleted = st.files_deleted + 1 ∧
    (clean_step env up cb bp cat st e).1.size_freed = st.size_freed + e.size.getD 0 ∧
    (clean_step env up cb bp cat st e).1.errors = st.errors ∧
    (clean_step env up cb bp cat st e).1.fs.existsPath e.path = false := by
  have hkind := (stepFS_keeps_kind env cb bp cat st.fs e.path hex).2
  by_cases hf : (stepFS env cb bp cat st.fs e.path).isFile e.path
  · simp only [clean_step, hp, hex, Bool.false_eq_true, if_false, Bool.not_true,
      hf, if_true, hok]
    exact ⟨trivial, trivial, trivial, trivial, existsPath_removePath_self _ _⟩
  · have hd : (stepFS env cb bp cat st.fs e.path).isDir e.path = true := by
      rcases hkind with h | h
      · exact absurd h hf
      · exact h
    simp only [clean_step, hp, hex, Bool.false_eq_true, if_false, Bool.not_true,
      hf, hd, if_true, hok]
    exact ⟨trivial, trivial, trivial, trivial, existsPath_removeTree_self _ _⟩

/-- An unprotected, existing item whose delete raises is recorded in the
errors list and contributes to neither counter. -/
theorem clean_step_active_failed (env : Oracles) (up : String) (cb : Bool)
    (bp : Option String) (cat : String) (st : CleanerState) (e : FileInfo)
    (hp : is_path_protected up e.path = false)
    (hex : st.fs.existsPath e.path = true)
    (hok : env.deleteOk e.path = false) :
    (clean_step env up cb bp cat st e).2 = Outcome.failed ∧
    (clean_step env up cb bp cat st e).1.files_deleted = st.files_deleted ∧
    (clean_step env up cb bp cat st e).1.size_freed = st.size_freed ∧
    (clean_step env up cb bp cat st e).1.errors
      = st.errors ++ [cleanErrorMsg env e.path] := by
  have hkind := (stepFS_keeps_kind env cb bp cat st.fs e.path hex).2
  by_cases hf : (stepFS env cb bp cat st.fs e.path).isFile e.path
  · simp only [clean_step, hp, hex, Bool.false_eq_true, if_false, Bool.not_true,
      hf, if_true, hok]
    exact ⟨trivial, trivial, trivial, trivial⟩
  · have hd : (stepFS env cb bp cat st.fs e.path).isDir e.path = true := by
      rcases hkind with h | h
      · exact absurd h hf
      · exact h
    simp only [clean_step, hp, hex, Bool.false_eq_true, if_false, Bool.not_true,
      hf, hd, if_true, hok]
    exact ⟨trivial, trivial, trivial, trivial⟩

/-- Outcome `deleted` implies the item existed, was not protected, the
delete succeeded, the counters advanced, and the path was removed. -/
theorem clean_step_deleted_effect (env : Oracles) (up : String) (cb : Bool)
    (bp : Option String) (cat : String) (st : CleanerState) (e : FileInfo)
    (h : (clean_step env up cb bp cat st e).2 = Outcome.deleted) :
    st.fs.existsPath e.path = true ∧
    (clean_step env up cb bp cat st e).1.files_deleted = st.files_deleted + 1 ∧
    (clean_step env up cb bp cat st e).1.size_freed = st.size_freed + e.size.getD 0 ∧
    (clean_step env up cb bp cat st e).1.errors = st.errors ∧
    (clean_step env up cb bp cat st e).1.fs.existsPath e.path = false := by
  by_cases hp : is_path_protected up e.path
  · rw [clean_step_protected env up cb bp cat st e hp] at h
    exact Outcome.noConfusion h
  · rw [Bool.not_eq_true] at hp
    by_cases hex : st.fs.existsPath e.path
    · by_cases hok : env.deleteOk e.path
      · obtain ⟨_, h2, h3, h4, h5⟩ := clean_step_active_deleted env up cb bp cat st e hp hex hok
        exact ⟨hex, h2, h3, h4, h5⟩
      · rw [Bool.not_eq_true] at hok
        rw [(clean_step_active_failed env up cb bp cat st e hp hex hok).1] at h
        exact Outcome.noConfusion h
    · rw [Bool.not_eq_true] at hex
      rw [clean_step_vanished env up cb bp cat st e hex] at h
      exact Outcome.noConfusion h

/-- Outcome `failed` implies the counters are unchanged and the error
message for the item was appended. -/
theorem clean_step_failed_effect (env : Oracles) (up : String) (cb : Bool)
    (bp : Option String) (cat : String) (st : CleanerState) (e : FileInfo)
    (h : (clean_step env up cb bp cat st e).2 = Outcome.failed) :
    (clean_step env up cb bp cat st e).1.files_deleted = st.files_deleted ∧
    (clean_step env up cb bp cat st e).1.size_freed = st.size_freed ∧
    (clean_step env up cb bp cat st e).1.errors
      = st.errors ++ [cleanErrorMsg env e.path] := by
  by_cases hp : is_path_protected up e.path
  · rw [clean_step_protected env up cb bp cat st e hp] at h
    exact Outcome.noConfusion h
  · rw [Bool.not_eq_true] at hp
    by_cases hex : st.fs.existsPath e.path
    · by_cases hok : env.deleteOk e.path
      · rw [(clean_step_active_deleted env up cb bp cat st e hp hex hok).1] at h
        exact Outcome.noConfusion h
      · rw [Bool.not_eq_true] at hok
        exact (clean_step_active_failed env up cb bp cat st e hp hex hok).2
    · rw [Bool.not_eq_true] at hex
      rw [clean_step_vanished env up cb bp cat st e hex] at h
      exact Outcome.noConfusion h

/-- Outcome `skipped` implies the whole cleaner state is untouched. -/
theorem clean_step_skipped_effect (env : Oracles) (up : String) (cb : Bool)
    (bp : Option String) (cat : String) (st : CleanerState) (e : FileInfo)
    (h : (clean_step env up cb bp cat st e).2 = Outcome.skipped) :
    (clean_step env up cb bp cat st e).1 = st := by
  by_cases hp : is_path_protected up e.path
  · rw [clean_step_protected env up cb bp cat st e hp]
  · rw [Bool.not_eq_true] at hp
    by_cases hex : st.fs.existsPath e.path
    · by_cases hok : env.deleteOk e.path
      · rw [(clean_step_active_deleted env up cb bp cat st e hp hex hok).1] at h
        exact Outcome.noConfusion h
      · rw [Bool.not_eq_true] at hok
        rw [(clean_step_active_failed env up cb bp cat st e hp hex hok).1] at h
        exact Outcome.noConfusion h
    · rw [Bool.not_eq_true] at hex
      rw [clean_step_vanished env up cb bp cat st e hex]

/-- Number of items of an outcome log that were actually deleted. -/
def countDeleted (log : List (FileInfo × Outcome)) : Nat :=
  (log.filter (fun pr => pr.2 == Outcome.deleted)).length

/-- Summed scan-recorded sizes of the actually deleted items. -/
def sizeDeleted (log : List (FileInfo × Outcome)) : Nat :=
  ((log.filter (fun pr => pr.2 == Outcome.deleted)).map
    (fun pr => pr.1.size.getD 0)).sum

/-- Error messages of the items whose delete raised. -/
def failedMsgs (env : Oracles) (log : List (FileInfo × Outcome)) : List String :=
  (log.filter (fun pr => pr.2 == Outcome.failed)).map
    (fun pr => cleanErrorMsg env pr.1.path)

theorem countDeleted_cons_deleted (e : FileInfo) (l : List (FileInfo × Outcome)) :
    countDeleted ((e, Outcome.deleted) :: l) = countDeleted l + 1 := by
  simp [countDeleted, List.filter_cons]

theorem countDeleted_cons_of_ne (e : FileInfo) (oc : Outcome)
    (l : List (FileInfo × Outcome)) (h : oc ≠ Outcome.deleted) :
    countDeleted ((e, oc) :: l) = countDeleted l := by
  simp [countDeleted, List.filter_cons, h]

theorem sizeDeleted_cons_deleted (e : FileInfo) (l : List (FileInfo × Outcome)) :
    sizeDeleted ((e, Outcome.deleted) :: l) = e.size.getD 0 + sizeDeleted l := by
  simp [sizeDeleted, List.filter_cons]

theorem sizeDeleted_cons_of_ne (e : FileInfo) (oc : Outcome)
    (l : List (FileInfo × Outcome)) (h : oc ≠ Outcome.deleted) :
    sizeDeleted ((e, oc) :: l) = sizeDeleted l := by
  simp [sizeDeleted, List.filter_cons, h]

theorem failedMsgs_cons_failed (env : Oracles) (e : FileInfo)
    (l : List (FileInfo × Outcome)) :
    failedMsgs env ((e, Outcome.failed) :: l)
      = cleanErrorMsg env e.path :: failedMsgs env l := by
  simp [failedMsgs, List.filter_cons]

theorem failedMsgs_cons_of_ne (env : Oracles) (e : FileInfo) (oc : Outcome)
    (l : List (FileInfo × Outcome)) (h : oc ≠ Outcome.failed) :
    failedMsgs env ((e, oc) :: l) = failedMsgs env l := by
  simp [failedMsgs, List.filter_cons, h]

theorem countDeleted_append (l1 l2 : List (FileInfo × Outcome)) :
    countDeleted (l1 ++ l2) = countDeleted l1 + countDeleted l2 := by
  simp [countDeleted, List.filter_append]

theorem sizeDeleted_append (l1 l2 : List (FileInfo × Outcome)) :
    sizeDeleted (l1 ++ l2) = sizeDeleted l1 + sizeDeleted l2 := by
  simp [sizeDeleted, List.filter_append]

/-- A failed item of a log owns a message in `failedMsgs`. -/
theorem mem_failedMsgs_of_failed (env : Oracles) (pr : FileInfo × Outcome)
    (l : List (FileInfo × Outcome)) (hm : pr ∈ l) (hf : pr.2 = Outcome.failed) :
    cleanErrorMsg env pr.1.path ∈ failedMsgs env l := by
  exact List.mem_map.mpr ⟨pr, List.mem_filter.mpr ⟨hm, by rw [hf]; rfl⟩, rfl⟩

/-- Accounting for one category run: the final counters are the initial
ones advanced by exactly the deleted items of the log, and the errors are
the initial ones followed by exactly the failed items' messages. -/
theorem cleanCategoryRun_spec (env : Oracles) (up : String) (cb : Bool)
    (bp : Option String) (cat : String) :
    ∀ (files : List FileInfo) (st : CleanerState),
      (cleanCategoryRun env up cb bp cat st files).1.files_deleted
          = st.files_deleted
            + countDeleted (cleanCategoryRun env up cb bp cat st files).2 ∧
      (cleanCategoryRun env up cb bp cat st files).1.size_freed
          = st.size_freed
            + sizeDeleted (cleanCategoryRun env up cb bp cat st files).2 ∧
      (cleanCategoryRun env up cb bp cat st files).1.errors
          = st.errors
            ++ failedMsgs env (cleanCategoryRun env up cb bp cat st files).2 := by
  intro files
  induction files with
  | nil =>
    intro st
    refine ⟨?_, ?_, ?_⟩ <;> simp [cleanCategoryRun, countDeleted, sizeDeleted, failedMsgs]
  | cons e rest ih =>
    intro st
    have hrun1 : (cleanCategoryRun env up cb bp cat st (e :: rest)).1
        = (cleanCategoryRun env up cb bp cat
            (clean_step env up cb bp cat st e).1 rest).1 := rfl
    have hrun2 : (cleanCategoryRun env up cb bp cat st (e :: rest)).2
        = (e, (clean_step env up cb bp cat st e).2) ::
          (cleanCategoryRun env up cb bp cat
            (clean_step env up cb bp cat st e).1 rest).2 := rfl
    rw [hrun1, hrun2]
    cases hoc : (clean_step env up cb bp cat st e).2 with
    | skipped =>
      have h1 := clean_step_skipped_effect env up cb bp cat st e hoc
      rw [countDeleted_cons_of_ne _ _ _ (fun h => Outcome.noConfusion h),
        sizeDeleted_cons_of_ne _ _ _ (fun h => Outcome.noConfusion h),
        failedMsgs_cons_of_ne _ _ _ _ (fun h => Outcome.noConfusion h)]
      rw [h1]
      exact ih st
    | deleted =>
      obtain ⟨ih1, ih2, ih3⟩ := ih (clean_step env up cb bp cat st e).1
      obtain ⟨_, h2, h3, h4, _⟩ := clean_step_deleted_effect env up cb bp cat st e hoc
      rw [countDeleted_cons_deleted, sizeDeleted_cons_deleted,
        failedMsgs_cons_of_ne _ _ _ _ (fun h => Outcome.noConfusion h)]
      rw [h2] at ih1
      rw [h3] at ih2
      rw [h4] at ih3
      refine ⟨by rw [ih1]; omega, by rw [ih2]; omega, ih3⟩
    | failed =>
      obtain ⟨ih1, ih2, ih3⟩ := ih (clean_step env up cb bp cat st e).1
      obtain ⟨h2, h3, h4⟩ := clean_step_failed_effect env up cb bp cat st e hoc
      rw [countDeleted_cons_of_ne _ _ _ (fun h => Outcome.noConfusion h),
        sizeDeleted_cons_of_ne _ _ _ (fun h => Outcome.noConfusion h),
        failedMsgs_cons_failed]
      rw [h2] at ih1
      rw [h3] at ih2
      rw [h4] at ih3
      refine ⟨ih1, ih2, ?_⟩
      rw [ih3, List.append_assoc, List.singleton_append]

/-- Error lists only grow during the per-category loop. -/
theorem cleanupCatsRun_errors_mono (env : Oracles) (up : String) (cb : Bool)
    (bp : Option String) (fbc : List (String × List FileInfo)) :
    ∀ (cats : List String) (st : CleanerState),
      ∃ t, (cleanupCatsRun env up cb bp fbc cats st).1.errors = st.errors ++ t := by
  intro cats
  induction cats with
  | nil => intro st; exact ⟨[], (List.append_nil _).symm⟩
  | cons c rest ih =>
    intro st
    show ∃ t, (match lookupFBC fbc c with
      | none => cleanupCatsRun env up cb bp fbc rest st
      | some files =>
        match get_category_by_name c with
        | .error msg =>
          cleanupCatsRun env up cb bp fbc rest
            { st with errors := st.errors ++
                ["Error cleaning category " ++ c ++ ": " ++ msg] }
        | .ok _ =>
          let s1 := cleanCategoryRun env up cb bp c st files
          let s2 := cleanupCatsRun env up cb bp fbc rest s1.1
          (s2.1, s1.2 ++ s2.2)).1.errors = st.errors ++ t
    cases hl : lookupFBC fbc c with
    | none => exact ih st
    | some files =>
      cases hg : get_category_by_name c with
      | error msg =>
        obtain ⟨t, ht⟩ := ih
          { st with errors := st.errors ++
              ["Error cleaning category " ++ c ++ ": " ++ msg] }
        refine ⟨["Error cleaning category " ++ c ++ ": " ++ msg] ++ t, ?_⟩
        rw [ht]
        simp [List.append_assoc]
      | ok cat0 =>
        obtain ⟨t2, ht2⟩ := ih (cleanCategoryRun env up cb bp c st files).1
        refine ⟨failedMsgs env (cleanCategoryRun env up cb bp c st files).2 ++ t2, ?_⟩
        show (cleanupCatsRun env up cb bp fbc rest
            (cleanCategoryRun env up cb bp c st files).1).1.errors = _
        rw [ht2, (cleanCategoryRun_spec env up cb bp c files st).2.2,
          List.append_assoc]

/-- Accounting for the whole per-category loop: the counters advance by
exactly the deleted items of the concatenated log, and every failed item's
error message ends up in the final error list. -/
theorem cleanupCatsRun_spec (env : Oracles) (up : String) (cb : Bool)
    (bp : Option String) (fbc : List (String × List FileInfo)) :
    ∀ (cats : List String) (st : CleanerState),
      (cleanupCatsRun env up cb bp fbc cats st).1.files_deleted
          = st.files_deleted
            + countDeleted (cleanupCatsRun env up cb bp fbc cats st).2 ∧
      (cleanupCatsRun env up cb bp fbc cats st).1.size_freed
          = st.size_freed
            + sizeDeleted (cleanupCatsRun env up cb bp fbc cats st).2 ∧
      (∀ pr ∈ (cleanupCatsRun env up cb bp fbc cats st).2,
        pr.2 = Outcome.failed →
          cleanErrorMsg env pr.1.path
            ∈ (cleanupCatsRun env up cb bp fbc cats st).1.errors) := by
  intro cats
  induction cats with
  | nil =>
    intro st
    refine ⟨?_, ?_, ?_⟩
    · simp [cleanupCatsRun, countDeleted]
    · simp [cleanupCatsRun, sizeDeleted]
    · intro pr hpr
      simp [cleanupCatsRun] at hpr
  | cons c rest ih =>
    intro st
    cases hl : lookupFBC fbc c with
    | none =>
      have heq : cleanupCatsRun env up cb bp fbc (c :: rest) st
          = cleanupCatsRun env up cb bp fbc rest st := by
        show (match lookupFBC fbc c with
          | none => cleanupCatsRun env up cb bp fbc rest st
          | some files =>
            match get_category_by_name c with
            | .error msg =>
              cleanupCatsRun env up cb bp fbc rest
                { st with errors := st.errors ++
                    ["Error cleaning category " ++ c ++ ": " ++ msg] }
            | .ok _ =>
              let s1 := cleanCategoryRun env up cb bp c st files
              let s2 := cleanupCatsRun env up cb bp fbc rest s1.1
              (s2.1, s1.2 ++ s2.2)) = _
        rw [hl]
      rw [heq]
      exact ih st
    | some files =>
      cases hg : get_category_by_name c with
      | error msg =>
        have heq : cleanupCatsRun env up cb bp fbc (c :: rest) st
            = cleanupCatsRun env up cb bp fbc rest
                { st with errors := st.errors ++
                    ["Error cleaning category " ++ c ++ ": " ++ msg] } := by
          show (match lookupFBC fbc c with
            | none => cleanupCatsRun env up cb bp fbc rest st
            | some files =>
              match get_category_by_name c with
              | .error msg =>
                cleanupCatsRun env up cb bp fbc rest
                  { st with errors := st.errors ++
                      ["Error cleaning category " ++ c ++ ": " ++ msg] }
              | .ok _ =>
                let s1 := cleanCategoryRun env up cb bp c st files
                let s2 := cleanupCatsRun env up cb bp fbc rest s1.1
                (s2.1, s1.2 ++ s2.2)) = _
          rw [hl, hg]
        rw [heq]
        exact ih _
      | ok cat0 =>
        have heq : cleanupCatsRun env up cb bp fbc (c :: rest) st
            = ((cleanupCatsRun env up cb bp fbc rest
                  (cleanCategoryRun env up cb bp c st files).1).1,
               (cleanCategoryRun env up cb bp c st files).2 ++
                 (cleanupCatsRun env up cb bp fbc rest
                   (cleanCategoryRun env up cb bp c st files).1).2) := by
          show (match lookupFBC fbc c with
            | none => cleanupCatsRun env up cb bp fbc rest st
            | some files =>
              match get_category_by_name c with
              | .error msg =>
                cleanupCatsRun env up cb bp fbc rest
                  { st with errors := st.errors ++
                      ["Error cleaning category " ++ c ++ ": " ++ msg] }
              | .ok _ =>
                let s1 := cleanCategoryRun env up cb bp c st files
                let s2 := cleanupCatsRun env up cb bp fbc rest s1.1
                (s2.1, s1.2 ++ s2.2)) = _
          rw [hl, hg]
        obtain ⟨r1, r2, r3⟩ := cleanCategoryRun_spec env up cb bp c files st
        obtain ⟨i1, i2, i3⟩ := ih (cleanCategoryRun env up cb bp c st files).1
        rw [heq]
        refine ⟨?_, ?_, ?_⟩
        · rw [countDeleted_append, i1, r1]; omega
        · rw [sizeDeleted_append, i2, r2]; omega
        · intro pr hpr hfail
          rcases List.mem_append.mp hpr with hm | hm
          · have hmsg : cleanErrorMsg env pr.1.path
                ∈ (cleanCategoryRun env up cb bp c st files).1.errors := by
              rw [r3]
              exact List.mem_append_right _
                (mem_failedMsgs_of_failed env pr _ hm hfail)
            obtain ⟨t, ht⟩ := cleanupCatsRun_errors_mono env up cb bp fbc rest
              (cleanCategoryRun env up cb bp c st files).1
            rw [ht]
            exact List.mem_append_left _ hmsg
          · exact i3 pr hm hfail

/-- C1.  For every invocation of `cleanup_categories`, the returned
`files_deleted` and `size_freed` count exactly the items whose deletion
from disk actually succeeded (the `deleted` entries of the run's outcome
log): an item whose delete raises contributes to neither counter and its
error message is recorded in the result's `errors` list; a `deleted`
outcome really means the path existed before the step and is gone after
it; and a `failed` outcome leaves both counters untouched while appending
the item's error.  Backup failures never affect the counters (the backup
phase only ever appends filesystem entries and its exceptions are
swallowed). -/
theorem cleanup_counters_consistent (env : Oracles) (up : String) (sid : Nat)
    (ts : String) (fs0 : FS) (cats : List String)
    (fbc : List (String × List FileInfo)) (cb : Bool) :
    (cleanup_categories env up sid ts fs0 cats fbc cb).files_deleted
        = countDeleted (cleanupCategoriesRun env up sid ts fs0 cats fbc cb).2 ∧
    (cleanup_categories env up sid ts fs0 cats fbc cb).size_freed
        = sizeDeleted (cleanupCategoriesRun env up sid ts fs0 cats fbc cb).2 ∧
    (∀ pr ∈ (cleanupCategoriesRun env up sid ts fs0 cats fbc cb).2,
      pr.2 = Outcome.failed →
        cleanErrorMsg env pr.1.path
          ∈ (cleanup_categories env up sid ts fs0 cats fbc cb).errors) ∧
    (∀ (bp : Option String) (cat : String) (st : CleanerState) (e : FileInfo),
      (clean_step env up cb bp cat st e).2 = Outcome.deleted →
        st.fs.existsPath e.path = true ∧
        (clean_step env up cb bp cat st e).1.fs.existsPath e.path = false ∧
        (clean_step env up cb bp cat st e).1.files_deleted = st.files_deleted + 1 ∧
        (clean_step env up cb bp cat st e).1.size_freed
          = st.size_freed + e.size.getD 0) ∧
    (∀ (bp : Option String) (cat : String) (st : CleanerState) (e : FileInfo),
      (clean_step env up cb bp cat st e).2 = Outcome.failed →
        (clean_step env up cb bp cat st e).1.files_deleted = st.files_deleted ∧
        (clean_step env up cb bp cat st e).1.size_freed = st.size_freed ∧
        (clean_step env up cb bp cat st e).1.errors
          = st.errors ++ [cleanErrorMsg env e.path]) := by
  have hrun : cleanupCategoriesRun env up sid ts fs0 cats fbc cb
      = cleanupCatsRun env up cb
          (if cb then some (backupPathFor up sid ts) else none) fbc cats
          { files_deleted := 0, size_freed := 0, errors := [],
            fs := match (if cb then some (backupPathFor up sid ts) else none) with
              | some b => (fs0.makeDir (backupRootFor up)).makeDir b
              | none => fs0.makeDir (backupRootFor up) } := rfl
  obtain ⟨k1, k2, k3⟩ := cleanupCatsRun_spec env up cb
      (if cb then some (backupPathFor up sid ts) else none) fbc cats
      { files_deleted := 0, size_freed := 0, errors := [],
        fs := match (if cb then some (backupPathFor up sid ts) else none) with
          | some b => (fs0.makeDir (backupRootFor up)).makeDir b
          | none => fs0.makeDir (backupRootFor up) }
  refine ⟨?_, ?_, ?_, ?_, ?_⟩
  · show (cleanupCategoriesRun env up sid ts fs0 cats fbc cb).1.files_deleted = _
    rw [hrun, k1]
    simp
  · show (cleanupCategoriesRun env up sid ts fs0 cats fbc cb).1.size_freed = _
    rw [hrun, k2]
    simp
  · intro pr hpr hfail
    show cleanErrorMsg env pr.1.path
        ∈ (cleanupCategoriesRun env up sid ts fs0 cats fbc cb).1.errors
    rw [hrun] at hpr ⊢
    exact k3 pr hpr hfail
  · intro bp cat st e h
    obtain ⟨h1, h2, h3, _, h5⟩ := clean_step_deleted_effect env up cb bp cat st e h
    exact ⟨h1, h5, h2, h3⟩
  · intro bp cat st e h
    exact clean_step_failed_effect env up cb bp cat st e h

/-- The all-failing delete environment used by the C1 witness. -/
def envDenied : Oracles :=
  { backupOk := fun _ => true, deleteOk := fun _ => false,
    deleteErr := fun _ => "EPERM" }

/-- Witness for `cleanup_counters_consistent`: a concrete step whose
delete raises leaves both counters untouched and appends the item's
error message. -/
theorem cleanup_counters_consistent_witness :
    (clean_step envDenied "C:\\U" false none "temp_files"
        { files_deleted := 0, size_freed := 0, errors := [],
          fs := ⟨[("C:\\X\\a.tmp", EntryKind.file)]⟩ }
        { path := "C:\\X\\a.tmp", size := some 5 }).2 = Outcome.failed ∧
    ((clean_step envDenied "C:\\U" false none "temp_files"
        { files_deleted := 0, size_freed := 0, errors := [],
          fs := ⟨[("C:\\X\\a.tmp", EntryKind.file)]⟩ }
        { path := "C:\\X\\a.tmp", size := some 5 }).1.files_deleted = 0 ∧
      (clean_step envDenied "C:\\U" false none "temp_files"
        { files_deleted := 0, size_freed := 0, errors := [],
          fs := ⟨[("C:\\X\\a.tmp", EntryKind.file)]⟩ }
        { path := "C:\\X\\a.tmp", size := some 5 }).1.size_freed = 0 ∧
      (clean_step envDenied "C:\\U" false none "temp_files"
        { files_deleted := 0, size_freed := 0, errors := [],
          fs := ⟨[("C:\\X\\a.tmp", EntryKind.file)]⟩ }
        { path := "C:\\X\\a.tmp", size := some 5 }).1.errors
        = [] ++ [cleanErrorMsg envDenied "C:\\X\\a.tmp"]) :=
  ⟨by decide,
   (cleanup_counters_consistent envDenied "C:\\U" 0 "t" ⟨[]⟩ [] [] false).2.2.2.2
     none "temp_files"
     { files_deleted := 0, size_freed := 0, errors := [],
       fs := ⟨[("C:\\X\\a.tmp", EntryKind.file)]⟩ }
     { path := "C:\\X\\a.tmp", size := some 5 } (by decide)⟩

/-- C10.  A successfully deleted item advances `files_deleted` by exactly
one whether it is a single file or a whole directory tree (a deleted
directory's contained files are not counted individually), and advances
`size_freed` by the size recorded in the supplied file entry, a missing
size contributing zero. -/
theorem delete_success_counts_one_item (env : Oracles) (up : String) (cb : Bool)
    (bp : Option String) (cat : String) (st : CleanerState) (e : FileInfo)
    (hp : is_path_protected up e.path = false)
    (hex : st.fs.existsPath e.path = true)
    (hok : env.deleteOk e.path = true) :
    (clean_step env up cb bp cat st e).2 = Outcome.deleted ∧
    (clean_step env up cb bp cat st e).1.files_deleted = st.files_deleted + 1 ∧
    (clean_step env up cb bp cat st e).1.size_freed
      = st.size_freed + e.size.getD 0 ∧
    (e.size = none →
      (clean_step env up cb bp cat st e).1.size_freed = st.size_freed) := by
  obtain ⟨h1, h2, h3, _, _⟩ := clean_step_active_deleted env up cb bp cat st e hp hex hok
  refine ⟨h1, h2, h3, fun hn => ?_⟩
  rw [h3, hn]
  rfl

/-- Witness for `delete_success_counts_one_item`: deleting a directory
holding two files advances `files_deleted` by exactly one, and the
missing `size` key contributes zero. -/
theorem delete_success_counts_one_item_witness :
    (is_path_protected "C:\\U" "C:\\X\\d" = false ∧
      FS.existsPath ⟨[("C:\\X\\d", EntryKind.dir), ("C:\\X\\d\\f1", EntryKind.file),
        ("C:\\X\\d\\f2", EntryKind.file)]⟩ "C:\\X\\d" = true ∧
      envAllOk.deleteOk "C:\\X\\d" = true) ∧
    ((clean_step envAllOk "C:\\U" false none "dev_cache"
        { files_deleted := 0, size_freed := 0, errors := [],
          fs := ⟨[("C:\\X\\d", EntryKind.dir), ("C:\\X\\d\\f1", EntryKind.file),
            ("C:\\X\\d\\f2", EntryKind.file)]⟩ }
        { path := "C:\\X\\d", size := none }).2 = Outcome.deleted ∧
      (clean_step envAllOk "C:\\U" false none "dev_cache"
        { files_deleted := 0, size_freed := 0, errors := [],
          fs := ⟨[("C:\\X\\d", EntryKind.dir), ("C:\\X\\d\\f1", EntryKind.file),
            ("C:\\X\\d\\f2", EntryKind.file)]⟩ }
        { path := "C:\\X\\d", size := none }).1.files_deleted = 0 + 1 ∧
      (clean_step envAllOk "C:\\U" false none "dev_cache"
        { files_deleted := 0, size_freed := 0, errors := [],
          fs := ⟨[("C:\\X\\d", EntryKind.dir), ("C:\\X\\d\\f1", EntryKind.file),
            ("C:\\X\\d\\f2", EntryKind.file)]⟩ }
        { path := "C:\\X\\d", size := none }).1.size_freed
        = 0 + (none : Option Nat).getD 0 ∧
      ((none : Option Nat) = none →
        (clean_step envAllOk "C:\\U" false none "dev_cache"
          { files_deleted := 0, size_freed := 0, errors := [],
            fs := ⟨[("C:\\X\\d", EntryKind.dir), ("C:\\X\\d\\f1", EntryKind.file),
              ("C:\\X\\d\\f2", EntryKind.file)]⟩ }
          { path := "C:\\X\\d", size := none }).1.size_freed = 0)) :=
  ⟨⟨by decide, by decide, by decide⟩,
   delete_success_counts_one_item envAllOk "C:\\U" false none "dev_cache"
     { files_deleted := 0, size_freed := 0, errors := [],
       fs := ⟨[("C:\\X\\d", EntryKind.dir), ("C:\\X\\d\\f1", EntryKind.file),
         ("C:\\X\\d\\f2", EntryKind.file)]⟩ }
     { path := "C:\\X\\d", size := none } (by decide) (by decide) (by decide)⟩

/-- Numeric value of a decimal digit character. -/
def charVal (c : Char) : Nat := c.toNat - 48

/-- Value of a decimal digit string, most significant digit first. -/
def decVal (l : List Char) : Nat := l.foldl (fun a c => a * 10 + charVal c) 0

theorem charVal_digitChar (n : Nat) (h : n < 10) :
    charVal (Nat.digitChar n) = n := by
  interval_cases n <;> decide

theorem natToDecimalCore_acc (fuel : Nat) :
    ∀ (n : Nat) (acc : List Char),
      natToDecimalCore fuel n acc = natToDecimalCore fuel n [] ++ acc := by
  induction fuel with
  | zero => intro n acc; rfl
  | succ fuel ih =>
    intro n acc
    by_cases h : n < 10
    · simp [natToDecimalCore, h]
    · simp only [natToDecimalCore, h, if_false]
      rw [ih (n / 10) (Nat.digitChar (n % 10) :: acc),
        ih (n / 10) [Nat.digitChar (n % 10)]]
      rw [List.append_assoc, List.singleton_append]

theorem decVal_append_singleton (l : List Char) (c : Char) :
    decVal (l ++ [c]) = decVal l * 10 + charVal c := by
  simp [decVal, List.foldl_append]

theorem decVal_natToDecimalCore (fuel : Nat) :
    ∀ n : Nat, n < 10 ^ fuel → decVal (natToDecimalCore fuel n []) = n := by
  induction fuel with
  | zero =>
    intro n h
    rw [pow_zero] at h
    interval_cases n
    rfl
  | succ fuel ih =>
    intro n h
    by_cases h10 : n < 10
    · simp only [natToDecimalCore, h10, if_true]
      show decVal ([] ++ [Nat.digitChar n]) = n
      rw [decVal_append_singleton, charVal_digitChar n h10]
      simp [decVal]
    · simp only [natToDecimalCore, h10, if_false]
      have hdiv : n / 10 < 10 ^ fuel := by
        rw [Nat.div_lt_iff_lt_mul (by omega : 0 < 10)]
        rw [pow_succ] at h
        exact h
      rw [natToDecimalCore_acc, decVal_append_singleton, ih (n / 10) hdiv,
        charVal_digitChar (n % 10) (Nat.mod_lt n (by omega))]
      omega

/-- Python renders distinct numbers as distinct decimal strings. -/
theorem natRepr_inj (a b : Nat) (h : natRepr a = natRepr b) : a = b := by
  have hlt : ∀ n : Nat, n < 10 ^ (n + 1) := fun n =>
    lt_of_lt_of_le (Nat.lt_pow_self (by omega) n)
      (Nat.pow_le_pow_right (by omega) (Nat.le_succ n))
  have ha := decVal_natToDecimalCore (a + 1) a (hlt a)
  have hb := decVal_natToDecimalCore (b + 1) b (hlt b)
  have hd : natToDecimalCore (a + 1) a [] = natToDecimalCore (b + 1) b [] :=
    congrArg String.data h
  rw [hd, hb] at ha
  exact ha.symm

/-- String concatenation acts as list concatenation on the underlying
character data. -/
theorem strData_append (a b : String) : (a ++ b).data = a.data ++ b.data := by
  cases a
  cases b
  rfl

/-- `splitext` splits the path: stem and extension concatenate back to
the original. -/
theorem splitext_concat (p : String) : (splitext p).1 ++ (splitext p).2 = p := by
  cases p with
  | mk l =>
    simp only [splitext]
    split
    · split
      · show String.mk l ++ String.mk [] = String.mk l
        show String.mk (l ++ []) = String.mk l
        rw [List.append_nil]
      · show String.mk (List.take _ l) ++ String.mk (List.drop _ l) = String.mk l
        show String.mk (List.take _ l ++ List.drop _ l) = String.mk l
        rw [List.take_append_drop]
    · show String.mk l ++ String.mk [] = String.mk l
      show String.mk (l ++ []) = String.mk l
      rw [List.append_nil]

/-- Two distinct collision counters yield distinct candidate names. -/
theorem candidate_inj (orig : String) (j k : Nat)
    (h : candidate orig j = candidate orig k) : j = k := by
  simp only [candidate] at h
  have hd := congrArg String.data h
  rw [strData_append, strData_append, strData_append, strData_append,
    strData_append, strData_append] at hd
  rw [List.append_left_inj] at hd
  rw [List.append_assoc, List.append_assoc, List.append_right_inj] at hd
  rw [List.append_right_inj] at hd
  have : natRepr j = natRepr k := by
    cases hj : natRepr j with
    | mk lj =>
      cases hk : natRepr k with
      | mk lk =>
        rw [hj, hk] at hd
        rw [show (String.mk lj).data = lj from rfl,
          show (String.mk lk).data = lk from rfl] at hd
        rw [hd]
  exact natRepr_inj j k this

/-- A suffixed candidate name is never the original destination name. -/
theorem candidate_ne_orig (orig : String) (k : Nat) :
    candidate orig k ≠ orig := by
  intro h
  have horig := splitext_concat orig
  have hd := congrArg String.data h
  simp only [candidate] at hd
  rw [strData_append, strData_append, strData_append] at hd
  have hlen := congrArg List.length hd
  have horigd := congrArg String.data horig
  rw [strData_append] at horigd
  have hlen2 := congrArg List.length horigd
  rw [List.length_append] at hlen2
  rw [List.length_append, List.length_append, List.length_append] at hlen
  rw [show ("_" : String).data.length = 1 from rfl] at hlen
  omega

/-- The sequence of destinations the collision loop examines, starting
from `dest` with next counter `counter`. -/
def collStream (orig dest : String) (counter : Nat) : Nat → String
  | 0 => dest
  | i + 1 => candidate orig (counter + i)

/-- If some examined candidate within the fuel bound is free, the
collision loop returns a destination that does not exist. -/
theorem resolveCollision_fresh_of (fs : FS) (orig : String) :
    ∀ (fuel counter : Nat) (dest : String),
      (∃ i, i < fuel ∧ fs.existsPath (collStream orig dest counter i) = false) →
      fs.existsPath (resolveCollision fs orig fuel counter dest) = false := by
  intro fuel
  induction fuel with
  | zero =>
    intro counter dest h
    rcases h with ⟨i, hi, _⟩
    omega
  | succ fuel ih =>
    intro counter dest h
    by_cases hd : fs.existsPath dest
    · have hstep : resolveCollision fs orig (fuel + 1) counter dest
          = resolveCollision fs orig fuel (counter + 1) (candidate orig counter) := by
        simp [resolveCollision, hd]
      rw [hstep]
      apply ih
      rcases h with ⟨i, hi, hfr⟩
      cases i with
      | zero =>
        rw [show collStream orig dest counter 0 = dest from rfl, hd] at hfr
        exact Bool.noConfusion hfr
      | succ i =>
        refine ⟨i, by omega, ?_⟩
        cases i with
        | zero => exact hfr
        | succ i2 =>
          show fs.existsPath (candidate orig (counter + 1 + i2)) = false
          have harith : counter + 1 + i2 = counter + (i2 + 1) := by omega
          rw [harith]
          exact hfr
    · rw [Bool.not_eq_true] at hd
      simp [resolveCollision, hd]

/-- The collision loop returns either the original destination or a
suffixed candidate with counter at least the starting one. -/
theorem resolveCollision_shape (fs : FS) (orig : String) :
    ∀ (fuel counter : Nat) (dest : String),
      resolveCollision fs orig fuel counter dest = dest ∨
        ∃ k, counter ≤ k ∧
          resolveCollision fs orig fuel counter dest = candidate orig k := by
  intro fuel
  induction fuel with
  | zero => intro counter dest; left; rfl
  | succ fuel ih =>
    intro counter dest
    by_cases hd : fs.existsPath dest
    · have hstep : resolveCollision fs orig (fuel + 1) counter dest
          = resolveCollision fs orig fuel (counter + 1) (candidate orig counter) := by
        simp [resolveCollision, hd]
      rw [hstep]
      rcases ih (counter + 1) (candidate orig counter) with h | ⟨k, hk, h⟩
      · right; exact ⟨counter, Nat.le_refl _, h⟩
      · right; exact ⟨k, by omega, h⟩
    · left; simp [resolveCollision, hd]

/-- The examined stream starting at the original destination is
injective: the original differs from every suffixed name, and distinct
counters give distinct names. -/
theorem collStream_orig_inj (orig : String) (i j : Nat)
    (h : collStream orig orig 1 i = collStream orig orig 1 j) : i = j := by
  cases i with
  | zero =>
    cases j with
    | zero => rfl
    | succ j => exact absurd h.symm (candidate_ne_orig orig (1 + j))
  | succ i =>
    cases j with
    | zero => exact absurd h (candidate_ne_orig orig (1 + i))
    | succ j =>
      have := candidate_inj orig (1 + i) (1 + j) h
      omega

/-- Pigeonhole: a filesystem with `n` entries cannot contain all of the
first `n + 1` (pairwise distinct) candidate destinations. -/
theorem exists_fresh_candidate (fs : FS) (orig : String) :
    ∃ i, i < fs.entries.length + 1 ∧
      fs.existsPath (collStream orig orig 1 i) = false := by
  by_contra hcon
  push_neg at hcon
  have hall : ∀ i, i < fs.entries.length + 1 →
      fs.existsPath (collStream orig orig 1 i) = true := by
    intro i hi
    have hne := hcon i hi
    cases hb : fs.existsPath (collStream orig orig 1 i) with
    | false => exact absurd hb hne
    | true => rfl
  have hmem : ∀ i, i < fs.entries.length + 1 →
      collStream orig orig 1 i ∈ fs.entries.map (fun e => e.1) := by
    intro i hi
    have hi2 := hall i hi
    rw [FS.existsPath, List.any_eq_true] at hi2
    rcases hi2 with ⟨x, hx, hbx⟩
    exact List.mem_map.mpr ⟨x, hx, eq_of_beq hbx⟩
  classical
  have himg : ∀ i ∈ Finset.range (fs.entries.length + 1),
      collStream orig orig 1 i ∈ (fs.entries.map (fun e => e.1)).toFinset := by
    intro i hi
    rw [List.mem_toFinset]
    exact hmem i (Finset.mem_range.mp hi)
  have hinj : Set.InjOn (collStream orig orig 1)
      (Finset.range (fs.entries.length + 1)) :=
    fun i _ j _ h => collStream_orig_inj orig i j h
  have hcard := Finset.card_le_card_of_injOn (collStream orig orig 1) himg hinj
  rw [Finset.card_range] at hcard
  have hle : (fs.entries.map (fun e => e.1)).toFinset.card
      ≤ fs.entries.length := by
    calc (fs.entries.map (fun e => e.1)).toFinset.card
        ≤ (fs.entries.map (fun e => e.1)).length := List.toFinset_card_le _
      _ = fs.entries.length := List.length_map _ _
  omega

/-- The destination chosen by the collision loop never exists on disk. -/
theorem backupDest_fresh (fs : FS) (categoryBackup itemPath : String) :
    fs.existsPath (backupDest fs categoryBackup itemPath) = false := by
  apply resolveCollision_fresh_of
  exact exists_fresh_candidate fs (joinPath categoryBackup (basename itemPath))

/-- The chosen destination is the original name or a suffixed variant
`name_k ext` with `k ≥ 1`. -/
theorem backupDest_shape (fs : FS) (categoryBackup itemPath : String) :
    backupDest fs categoryBackup itemPath
        = joinPath categoryBackup (basename itemPath) ∨
      ∃ k, 1 ≤ k ∧ backupDest fs categoryBackup itemPath
        = candidate (joinPath categoryBackup (basename itemPath)) k :=
  resolveCollision_shape fs (joinPath categoryBackup (basename itemPath))
    (fs.entries.length + 1) 1 (joinPath categoryBackup (basename itemPath))

theorem find?_eq_none_of_not_exists (fs : FS) (p : String)
    (h : fs.existsPath p = false) :
    fs.entries.find? (fun e => e.1 == p) = none := by
  rw [FS.existsPath, List.any_eq_false] at h
  rw [List.find?_eq_none]
  exact h

theorem lookupKind_addEntry_fresh (fs : FS) (p : String) (k : EntryKind)
    (h : fs.existsPath p = false) :
    (fs.addEntry p k).lookupKind p = some k := by
  rw [FS.addEntry, FS.lookupKind]
  rw [show (FS.mk (fs.entries ++ [(p, k)])).entries = fs.entries ++ [(p, k)] from rfl]
  rw [List.find?_append, find?_eq_none_of_not_exists fs p h]
  simp

theorem existsPath_addEntry_self (fs : FS) (p : String) (k : EntryKind) :
    (fs.addEntry p k).existsPath p = true := by
  rw [FS.addEntry, FS.existsPath]
  rw [show (FS.mk (fs.entries ++ [(p, k)])).entries = fs.entries ++ [(p, k)] from rfl]
  rw [List.any_append]
  simp

/-- When the backup succeeds and the item is a file, `_backup_item` is
exactly: create the category directory, pick the collision-free
destination, and copy the file there. -/
theorem backup_item_file_eq (ok : String → Bool) (bp cat : String) (fs : FS)
    (p : String) (hok : ok p = true)
    (hf : (fs.makeDir (joinPath bp cat)).isFile p = true) :
    backup_item ok bp cat fs p
      = (fs.makeDir (joinPath bp cat)).addEntry
          (backupDest (fs.makeDir (joinPath bp cat)) (joinPath bp cat) p)
          EntryKind.file := by
  simp [backup_item, hok, hf]

/-- C9.  Backing up two items of one run that map to the same destination
filename produces distinct destination paths: the second backup's chosen
destination is fresh, so it differs from the first backup's; after both
backups each destination still holds its own file copy (no overwrite);
and the second destination is the shared original name or that name with
a numeric `_k` suffix (`k ≥ 1`) inserted before the extension. -/
theorem backup_collision_distinct_no_overwrite (ok : String → Bool)
    (bp cat p1 p2 : String) (fs : FS)
    (h1 : ok p1 = true) (h2 : ok p2 = true)
    (hb : basename p1 = basename p2)
    (hf1 : (fs.makeDir (joinPath bp cat)).isFile p1 = true)
    (hf2 : ((backup_item ok bp cat fs p1).makeDir (joinPath bp cat)).isFile p2 = true) :
    backupDest (fs.makeDir (joinPath bp cat)) (joinPath bp cat) p1
        ≠ backupDest ((backup_item ok bp cat fs p1).makeDir (joinPath bp cat))
            (joinPath bp cat) p2 ∧
    (backup_item ok bp cat (backup_item ok bp cat fs p1) p2).lookupKind
        (backupDest (fs.makeDir (joinPath bp cat)) (joinPath bp cat) p1)
      = some EntryKind.file ∧
    (backup_item ok bp cat (backup_item ok bp cat fs p1) p2).lookupKind
        (backupDest ((backup_item ok bp cat fs p1).makeDir (joinPath bp cat))
          (joinPath bp cat) p2)
      = some EntryKind.file ∧
    (backupDest ((backup_item ok bp cat fs p1).makeDir (joinPath bp cat))
          (joinPath bp cat) p2
        = joinPath (joinPath bp cat) (basename p1) ∨
      ∃ k, 1 ≤ k ∧
        backupDest ((backup_item ok bp cat fs p1).makeDir (joinPath bp cat))
            (joinPath bp cat) p2
          = candidate (joinPath (joinPath bp cat) (basename p1)) k) := by
  have hA := backup_item_file_eq ok bp cat fs p1 h1 hf1
  have hfresh1 := backupDest_fresh (fs.makeDir (joinPath bp cat)) (joinPath bp cat) p1
  have hlk1 : (backup_item ok bp cat fs p1).lookupKind
      (backupDest (fs.makeDir (joinPath bp cat)) (joinPath bp cat) p1)
      = some EntryKind.file := by
    rw [hA]
    exact lookupKind_addEntry_fresh _ _ _ hfresh1
  have hex1 : (backup_item ok bp cat fs p1).existsPath
      (backupDest (fs.makeDir (joinPath bp cat)) (joinPath bp cat) p1) = true := by
    rw [hA]
    exact existsPath_addEntry_self _ _ _
  obtain ⟨t, ht⟩ := makeDir_entries (backup_item ok bp cat fs p1) (joinPath bp cat)
  have hfs2 : (backup_item ok bp cat fs p1).makeDir (joinPath bp cat)
      = ⟨(backup_item ok bp cat fs p1).entries ++ t⟩ := by
    cases hq : (backup_item ok bp cat fs p1).makeDir (joinPath bp cat) with
    | mk es => rw [hq] at ht; simpa using ht
  have hex2 : ((backup_item ok bp cat fs p1).makeDir (joinPath bp cat)).existsPath
      (backupDest (fs.makeDir (joinPath bp cat)) (joinPath bp cat) p1) = true := by
    rw [hfs2]
    exact existsPath_append_of _ t _ hex1
  have hlk2 : ((backup_item ok bp cat fs p1).makeDir (joinPath bp cat)).lookupKind
      (backupDest (fs.makeDir (joinPath bp cat)) (joinPath bp cat) p1)
      = some EntryKind.file := by
    rw [hfs2]
    rw [lookupKind_append_of _ t _ hex1]
    exact hlk1
  have hfresh2 := backupDest_fresh
    ((backup_item ok bp cat fs p1).makeDir (joinPath bp cat)) (joinPath bp cat) p2
  have hne : backupDest (fs.makeDir (joinPath bp cat)) (joinPath bp cat) p1
      ≠ backupDest ((backup_item ok bp cat fs p1).makeDir (joinPath bp cat))
          (joinPath bp cat) p2 := by
    intro heq
    rw [← heq] at hfresh2
    rw [hex2] at hfresh2
    exact Bool.noConfusion hfresh2
  have hB := backup_item_file_eq ok bp cat (backup_item ok bp cat fs p1) p2 h2 hf2
  refine ⟨hne, ?_, ?_, ?_⟩
  · rw [hB, FS.addEntry]
    rw [show (FS.mk (((backup_item ok bp cat fs p1).makeDir (joinPath bp cat)).entries
        ++ [(backupDest ((backup_item ok bp cat fs p1).makeDir (joinPath bp cat))
          (joinPath bp cat) p2, EntryKind.file)]))
      = FS.mk (((backup_item ok bp cat fs p1).makeDir (joinPath bp cat)).entries
        ++ [(backupDest ((backup_item ok bp cat fs p1).makeDir (joinPath bp cat))
          (joinPath bp cat) p2, EntryKind.file)]) from rfl]
    rw [lookupKind_append_of _ _ _ hex2]
    exact hlk2
  · rw [hB]
    exact lookupKind_addEntry_fresh _ _ _ hfresh2
  · have := backupDest_shape ((backup_item ok bp cat fs p1).makeDir (joinPath bp cat))
      (joinPath bp cat) p2
    rw [← hb] at this
    exact this

/-- Witness for `backup_collision_distinct_no_overwrite`: two files both
named `f.txt`, backed up in sequence into the same category directory,
get distinct backup destinations. -/
theorem backup_collision_witness :
    basename "C:\\x\\f.txt" = basename "C:\\y\\f.txt" ∧
    backupDest
        (FS.makeDir ⟨[("C:\\x\\f.txt", EntryKind.file),
          ("C:\\y\\f.txt", EntryKind.file)]⟩ (joinPath "B" "temp_files"))
        (joinPath "B" "temp_files") "C:\\x\\f.txt"
      ≠ backupDest
          ((backup_item (fun _ => true) "B" "temp_files"
            ⟨[("C:\\x\\f.txt", EntryKind.file), ("C:\\y\\f.txt", EntryKind.file)]⟩
            "C:\\x\\f.txt").makeDir (joinPath "B" "temp_files"))
          (joinPath "B" "temp_files") "C:\\y\\f.txt" :=
  ⟨by decide,
   (backup_collision_distinct_no_overwrite (fun _ => true) "B" "temp_files"
     "C:\\x\\f.txt" "C:\\y\\f.txt"
     ⟨[("C:\\x\\f.txt", EntryKind.file), ("C:\\y\\f.txt", EntryKind.file)]⟩
     (by decide) (by decide) (by decide) (by decide) (by decide)).1⟩

end DiskAnalyzer
